import Mathlib

/-!
Verification of the mcp-read-only-sql query gateway against its specification.

The Python sources under `src/` are shallowly embedded: pure functions become
Lean functions over `String` / `List Char`, fallible code returns
`Except String _`, and the asynchronous wrappers are modelled by explicit
outcome types.  Each section names the source file and lines it embeds.
-/

deriving instance DecidableEq for Except

namespace Spec2Proof

/-! ### Python string helpers

Models of the Python `str` operations used by the sources (`str.strip`,
`str.upper`, `x in s`, `a or b`).  Whitespace is the ASCII whitespace set that
`str.strip()` removes; the repository only feeds ASCII SQL and config strings
through these helpers. -/

def py_ws (c : Char) : Bool :=
  c = ' ' || c = '\t' || c = '\n' || c = '\r' || c = '\x0b' || c = '\x0c'

def lstripL (cs : List Char) : List Char := cs.dropWhile py_ws

def rstripL (cs : List Char) : List Char := (cs.reverse.dropWhile py_ws).reverse

def stripL (cs : List Char) : List Char := rstripL (lstripL cs)

def pyStrip (s : String) : String := String.mk (stripL s.data)

def upperL (cs : List Char) : List Char := cs.map Char.toUpper

/-- Python's substring test `needle in haystack` on character lists. -/
def containsSub (needle : List Char) : List Char → Bool
  | [] => needle.isEmpty
  | c :: rest => needle.isPrefixOf (c :: rest) || containsSub needle rest

/-- Python's `a or b` for an optional string `a` (`None` and `""` are falsy). -/
def py_or_str (a : Option String) (b : String) : String :=
  match a with
  | none => b
  | some s => if s = "" then b else s

/-- Decimal rendering of a natural number (model of Python's `str(int)`),
written with explicit fuel so that it evaluates by kernel reduction. -/
def natReprGo : Nat → Nat → List Char → List Char
  | 0, _, acc => acc
  | fuel + 1, n, acc =>
    let d := Char.ofNat (48 + n % 10)
    if n < 10 then d :: acc else natReprGo fuel (n / 10) (d :: acc)

def natRepr (n : Nat) : String := String.mk (natReprGo (n + 1) n [])

/-- UTF-8 byte length of a string (model of Python's `len(s.encode())`). -/
def utf8Len (s : String) : Nat := s.data.foldl (fun n c => n + c.utf8Size) 0

/-- Accumulate decimal digits; `none` at the first non-digit. -/
def parse_digits_go (acc : Nat) : List Char → Option Nat
  | [] => some acc
  | c :: rest =>
    if c.isDigit then parse_digits_go (acc * 10 + (c.toNat - 48)) rest else none

/-- Model of Python's `int(str)`: optional surrounding whitespace, optional
sign, then at least one decimal digit. -/
def py_int (s : String) : Option Int :=
  match stripL s.data with
  | [] => none
  | '-' :: rest =>
    match rest with
    | [] => none
    | _ => (parse_digits_go 0 rest).map (fun n => -(n : Int))
  | '+' :: rest =>
    match rest with
    | [] => none
    | _ => (parse_digits_go 0 rest).map (fun n => (n : Int))
  | cs => (parse_digits_go 0 cs).map (fun n => (n : Int))

/-! ### Configuration model — `src/config/connection.py`

Raw YAML records are modelled by `RawConfig`: an absent key is `none`.
Python `isinstance` checks on YAML values cannot fail in this typed model and
are not repeated; truthiness of strings (`""` falsy) is modelled explicitly.
For `max_result_bytes` the outer `Option` is key presence and the inner one a
YAML `null`, because `config.get("max_result_bytes", DEFAULT)` distinguishes
the two.  The `_password_env_var` / `_password_env_found` / `_password_from_env`
diagnostic attributes are not modelled (nothing reads them). -/

def DEFAULT_IMPLEMENTATION : String := "cli"
def DEFAULT_SSH_PORT : Int := 22
def DEFAULT_QUERY_TIMEOUT : Nat := 120
def DEFAULT_CONNECTION_TIMEOUT : Nat := 10
def DEFAULT_MAX_RESULT_BYTES : Nat := 10000000

/-- `conn_name.upper().replace('-', '_')`. -/
def upper_underscore (s : String) : String :=
  String.mk (s.data.map (fun c => if c.toUpper = '-' then '_' else c.toUpper))

/-- Python truthiness of an optional string (`None` and `""` are falsy). -/
def opt_truthy (o : Option String) : Bool :=
  match o with
  | none => false
  | some s => s ≠ ""

/-- Loop body of `_normalize_database_list` (connection.py lines 24-32). -/
def normalize_db_go (fieldName : String) (cleaned : List String) :
    List String → Except String (List String)
  | [] => .ok cleaned
  | item :: rest =>
    let name := pyStrip item
    if name = "" then
      .error ("'" ++ fieldName ++ "' entries must be non-empty strings")
    else if cleaned.contains name then normalize_db_go fieldName cleaned rest
    else normalize_db_go fieldName (cleaned ++ [name]) rest

/-- `_normalize_database_list` (connection.py lines 18-35) on a present list
value; the caller handles the `None` case. -/
def normalize_database_list (value : List String) (fieldName : String) :
    Except String (List String) := do
  let cleaned ← normalize_db_go fieldName [] value
  if cleaned.isEmpty then
    throw ("'" ++ fieldName ++ "' must contain at least one database name")
  else
    return cleaned

structure Server where
  host : String
  port : Int
deriving Repr, DecidableEq

/-- A `servers` list entry: either a `{host, port}` map (with each key possibly
missing) or a `"host:port"` / `"host"` string. -/
inductive ServerInput where
  | mapForm (host : Option String) (port : Option Int)
  | strForm (s : String)
deriving Repr, DecidableEq

/-- Split a character list at its last `sep`, like Python's `rsplit(sep, 1)`;
`none` when `sep` does not occur. -/
def rsplit1 (sep : Char) : List Char → Option (List Char × List Char)
  | [] => none
  | c :: rest =>
    match rsplit1 sep rest with
    | some (h, t) => some (c :: h, t)
    | none => if c = sep then some ([], rest) else none

/-- `Server.from_dict` (connection.py lines 44-77).  `int(port_str)` is
modelled by `py_int`. -/
def server_from_dict (data : ServerInput) (db_type : String)
    (implementation : String) : Except String Server :=
  match data with
  | .mapForm host port =>
    match host with
    | none => .error "Server configuration missing required field 'host'"
    | some h =>
      match port with
      | none => .error "Server configuration missing required field 'port'"
      | some p => .ok ⟨h, p⟩
  | .strForm s =>
    match rsplit1 ':' s.data with
    | some (h, t) =>
      match py_int (String.mk t) with
      | some p => .ok ⟨String.mk h, p⟩
      | none => .error ("invalid literal for int() with base 10: '" ++ String.mk t ++ "'")
    | none =>
      if db_type = "postgresql" then .ok ⟨s, 5432⟩
      else if db_type = "clickhouse" then
        .ok ⟨s, if implementation = "cli" then 9000 else 8123⟩
      else
        .error ("Cannot determine default port for server '" ++ s ++
          "' without database type")

/-- Raw `ssh_tunnel` YAML block; an absent key is `none`. -/
structure SshRaw where
  enabled : Option Bool := none
  host : Option String := none
  port : Option Int := none
  user : Option String := none
  private_key : Option String := none
  password : Option String := none
  password_env : Option String := none
  ssh_timeout : Option Int := none
deriving Repr

structure SSHTunnelConfig where
  host : String
  port : Int
  user : String
  private_key : Option String := none
  password : Option String := none
  ssh_timeout : Option Nat := none
deriving Repr, DecidableEq

/-- `SSHTunnelConfig.from_dict` plus `__post_init__` (connection.py lines
90-144): returns `none` for a disabled block; `expanduser` is modelled as the
identity. -/
def ssh_tunnel_from_dict (data : SshRaw) (env : List (String × String)) :
    Except String (Option SSHTunnelConfig) := do
  if data.enabled.getD true = false then
    return none
  let host ← match data.host with
    | none => Except.error "SSH tunnel configuration missing required field 'host'"
    | some h => Except.ok h
  let user ← match data.user with
    | none => Except.error "SSH tunnel configuration missing required field 'user'"
    | some u => Except.ok u
  let password ← match data.password_env with
    | some v =>
      match env.lookup v with
      | some p => Except.ok (some p)
      | none =>
        Except.error ("SSH tunnel password environment variable '" ++ v ++ "' not found")
    | none => Except.ok data.password
  let private_key := data.private_key
  -- __post_init__ validation
  if !(opt_truthy private_key) && !(opt_truthy password) then
    throw ("SSH tunnel to " ++ host ++ " requires either 'private_key' or 'password'/'password_env'")
  let ssh_timeout ← match data.ssh_timeout with
    | none => Except.ok none
    | some t =>
      if t ≤ 0 then Except.error "SSH tunnel timeout must be a positive integer"
      else Except.ok (some t.toNat)
  return some
    { host := host, port := data.port.getD DEFAULT_SSH_PORT, user := user,
      private_key := private_key, password := password, ssh_timeout := ssh_timeout }

/-- A raw connection record (one YAML list element); an absent key is `none`,
`servers` is `[]` when absent (both fail the same required-field check). -/
structure RawConfig where
  connection_name : Option String := none
  type : Option String := none
  servers : List ServerInput := []
  db : Option String := none
  default_database : Option String := none
  allowed_databases : Option (List String) := none
  databases : Option (List String) := none
  username : Option String := none
  password : Option String := none
  password_env : Option String := none
  implementation : Option String := none
  ssh_tunnel : Option SshRaw := none
  query_timeout : Option Nat := none
  connection_timeout : Option Nat := none
  max_result_bytes : Option (Option Nat) := none
  description : Option String := none
deriving Repr

/-- The validated connection descriptor (the attributes `Connection.__init__`
stores, connection.py lines 288-304). -/
structure Connection where
  name : String
  db_type : String
  servers : List Server
  database : String
  allowed_databases : List String
  username : String
  password : String
  implementation : String
  ssh_tunnel : Option SSHTunnelConfig
  query_timeout : Nat
  connection_timeout : Nat
  max_result_bytes : Option Nat
  description : String
deriving Repr, DecidableEq

/-- Loop of connection.py lines 258-263: validate each server, prefixing
errors with the 1-based index. -/
def parse_servers (db_type implementation : String) :
    Nat → List ServerInput → Except String (List Server)
  | _, [] => .ok []
  | idx, d :: rest =>
    match server_from_dict d db_type implementation with
    | .ok s =>
      match parse_servers db_type implementation (idx + 1) rest with
      | .ok others => .ok (s :: others)
      | .error e => .error e
    | .error e => .error ("Server #" ++ natRepr (idx + 1) ++ ": " ++ e)

/-- `if cond: raise ValueError(msg)`. -/
def guardE (b : Bool) (msg : String) : Except String Unit :=
  if b then .error msg else .ok ()

/-- `if "key" not in config: raise ValueError(msg)` followed by the access. -/
def required {α : Type} (o : Option α) (msg : String) : Except String α :=
  match o with
  | none => .error msg
  | some x => .ok x

/-- Password resolution of `Connection.__init__` (connection.py lines
196-223): explicit `password_env` (missing variable fails), literal
`password`, then the convention variable, else empty. -/
def resolve_password (config : RawConfig) (env : List (String × String))
    (conn_name : String) : Except String String :=
  match config.password_env with
  | some v =>
    match env.lookup v with
    | some p => .ok p
    | none => .error ("Password environment variable '" ++ v ++ "' not found")
  | none =>
    match config.password with
    | some p => .ok p
    | none =>
      .ok ((env.lookup ("DB_PASSWORD_" ++ upper_underscore conn_name)).getD "")

/-- `allowed_raw = config.get("allowed_databases", config.get("databases"))`
(connection.py line 236). -/
def allowed_raw_of (config : RawConfig) : Option (List String) :=
  match config.allowed_databases with
  | some v => some v
  | none => config.databases

/-- Line 237: normalize the allowlist when present, else the empty list. -/
def normalized_allowed (config : RawConfig) : Except String (List String) :=
  match allowed_raw_of config with
  | some v => normalize_database_list v "allowed_databases"
  | none => .ok []

/-- `db_field and default_db and db_field.strip() != default_db.strip()`
(connection.py line 239). -/
def db_default_mismatch (config : RawConfig) : Bool :=
  match config.db, config.default_database with
  | some d, some dd => d ≠ "" && dd ≠ "" && pyStrip d ≠ pyStrip dd
  | _, _ => false

/-- Lines 242-247: pick the default database and strip it. -/
def default_db_of (config : RawConfig) (allowed_databases : List String) : String :=
  let default_db1 : Option String :=
    match config.default_database with
    | some dd => some dd
    | none =>
      match config.db with
      | some d =>
        if d ≠ "" then some d
        else if !allowed_databases.isEmpty then some (allowed_databases.headD "")
        else none
      | none =>
        if !allowed_databases.isEmpty then some (allowed_databases.headD "")
        else none
  pyStrip (default_db1.getD "")

/-- Lines 249-255: reject a blank default, default the allowlist to a
singleton, and require membership otherwise. -/
def finalize_allowed (default_db : String) (allowed_databases : List String) :
    Except String (String × List String) :=
  if default_db = "" then
    .error "Connection configuration missing required field 'db' or 'default_database'"
  else if allowed_databases.isEmpty then .ok (default_db, [default_db])
  else if allowed_databases.contains default_db then .ok (default_db, allowed_databases)
  else .error "'default_database' must be included in 'allowed_databases'"

/-- Database allowlist/default resolution of `Connection.__init__`
(connection.py lines 229-255), producing `(default_db, allowed_databases)`;
the `allowed_databases`/`databases` exclusivity check stays with the caller to
preserve the source's error order. -/
def resolve_db_config (config : RawConfig) : Except String (String × List String) :=
  match normalized_allowed config with
  | .error e => .error e
  | .ok allowed_databases =>
    if db_default_mismatch config then
      .error "'db' and 'default_database' must match when both are provided"
    else finalize_allowed (default_db_of config allowed_databases) allowed_databases

/-- SSH tunnel block handling of `Connection.__init__` (connection.py lines
265-286): hydrate the legacy `SSH_PASSWORD_<NAME>` variable when no key and
no password fields are given, then validate, wrapping errors. -/
def resolve_ssh_tunnel (config : RawConfig) (env : List (String × String))
    (conn_name : String) : Except String (Option SSHTunnelConfig) :=
  match config.ssh_tunnel with
  | none => .ok none
  | some sshRaw =>
    let hydrated :=
      if !(opt_truthy sshRaw.private_key) && sshRaw.password.isNone &&
          sshRaw.password_env.isNone then
        match env.lookup ("SSH_PASSWORD_" ++ upper_underscore conn_name) with
        | some p => if p ≠ "" then { sshRaw with password := some p } else sshRaw
        | none => sshRaw
      else sshRaw
    match ssh_tunnel_from_dict hydrated env with
    | .ok t => .ok t
    | .error e => .error ("SSH tunnel configuration error: " ++ e)

/-- `Connection.__init__` (connection.py lines 155-304): validation and
field resolution, in source order. -/
def connection_init (config : RawConfig) (env : List (String × String)) :
    Except String Connection := do
  -- Required fields
  let conn_name ← required config.connection_name
    "Connection configuration missing required field 'connection_name'"
  let db_type ← required config.type
    "Connection configuration missing required field 'type'"
  let _ ← guardE config.servers.isEmpty
    "Connection configuration missing required field 'servers' (must be non-empty list)"
  let _ ← guardE (config.db.isNone && config.default_database.isNone &&
      config.allowed_databases.isNone && config.databases.isNone)
    "Connection configuration missing required field 'db' or 'allowed_databases'"
  let username ← required config.username
    "Connection configuration missing required field 'username'"
  -- Validate type
  let _ ← guardE (!(db_type = "postgresql" || db_type = "clickhouse"))
    ("Invalid database type: '" ++ db_type ++ "'. Must be 'postgresql' or 'clickhouse'")
  -- Validate implementation
  let implementation := config.implementation.getD DEFAULT_IMPLEMENTATION
  let _ ← guardE (!(implementation = "python" || implementation = "cli"))
    ("Invalid implementation: '" ++ implementation ++ "'. Must be 'python' or 'cli'")
  -- Load password
  let password ← resolve_password config env conn_name
  -- Parse database allowlist/defaults
  let _ ← guardE (config.allowed_databases.isSome && config.databases.isSome)
    "Use only one of 'allowed_databases' or 'databases'"
  let dbres ← resolve_db_config config
  -- Parse servers
  let servers ← parse_servers db_type implementation 0 config.servers
  -- Parse SSH tunnel if present
  let ssh_tunnel ← resolve_ssh_tunnel config env conn_name
  return {
      name := conn_name, db_type := db_type, servers := servers,
      database := dbres.1, allowed_databases := dbres.2,
      username := username, password := password,
      implementation := implementation, ssh_tunnel := ssh_tunnel,
      query_timeout := config.query_timeout.getD DEFAULT_QUERY_TIMEOUT,
      connection_timeout := config.connection_timeout.getD DEFAULT_CONNECTION_TIMEOUT,
      max_result_bytes :=
        (match config.max_result_bytes with
          | none => some DEFAULT_MAX_RESULT_BYTES
          | some v => v),
      description := config.description.getD "" }

/-- `Connection.resolve_database` (connection.py lines 331-344). -/
def resolve_database (c : Connection) (database : Option String) :
    Except String String :=
  match database with
  | none => .ok c.database
  | some d =>
    let candidate := pyStrip d
    if candidate = "" then .ok c.database
    else if c.allowed_databases.contains candidate then .ok candidate
    else
      .error ("Database '" ++ candidate ++ "' is not allowed for connection '" ++
        c.name ++ "'. Allowed databases: " ++ String.intercalate ", " c.allowed_databases)

/-! ### Connector base — `src/connectors/base.py` -/

def DEFAULT_SSH_TIMEOUT : Nat := 5

/-- `BaseConnector.__init__` lines 49-52: the SSH component of the hard
timeout.  Both a missing tunnel and a tunnel without a truthy `ssh_timeout`
fall back to `DEFAULT_SSH_TIMEOUT`. -/
def connector_ssh_timeout (c : Connection) : Nat :=
  match c.ssh_tunnel with
  | some ssh =>
    match ssh.ssh_timeout with
    | some t => if t = 0 then DEFAULT_SSH_TIMEOUT else t
    | none => DEFAULT_SSH_TIMEOUT
  | none => DEFAULT_SSH_TIMEOUT

/-- `BaseConnector.__init__` line 54: hard timeout is the sum of all component
timeouts. -/
def connector_hard_timeout (c : Connection) : Nat :=
  connector_ssh_timeout c + c.connection_timeout + c.query_timeout

/-- `BaseConnector._effective_max_result_bytes` (base.py lines 179-181):
`self.max_result_bytes` when the context-local enforce flag is set, else `0`.
`disable_result_limit` (lines 183-190) is the context manager that clears the
flag for one call. -/
def effective_max_result_bytes (c : Connection) (enforceLimit : Bool) : Option Nat :=
  if enforceLimit then c.max_result_bytes else some 0

/-- `max_bytes = self.max_result_bytes or 0` (clickhouse/cli.py line 111,
postgresql/cli.py line 82, and the `max_result_bytes or 0` in both python
executors). -/
def or_zero (m : Option Nat) : Nat :=
  match m with
  | none => 0
  | some v => v

def local_hosts : List String := ["localhost", "127.0.0.1", "::1"]

/-- Display host used in the not-found listing (base.py lines 129-136). -/
def display_host (sshTunnel : Option SSHTunnelConfig) (srv : Server) : String :=
  match sshTunnel with
  | some ssh =>
    if local_hosts.contains srv.host && ssh.host ≠ "" then ssh.host else srv.host
  | none => srv.host

def available_hosts_go (sshTunnel : Option SSHTunnelConfig) (acc : List String) :
    List Server → List String
  | [] => acc
  | srv :: rest =>
    let d := display_host sshTunnel srv
    if acc.contains d then available_hosts_go sshTunnel acc rest
    else available_hosts_go sshTunnel (acc ++ [d]) rest

def available_hosts (c : Connection) : List String :=
  available_hosts_go c.ssh_tunnel [] c.servers

def server_not_found_msg (c : Connection) (server : String) : String :=
  "Server '" ++ server ++ "' not found in connection '" ++ c.name ++
    "'. Available servers: " ++ String.intercalate ", " (available_hosts c)

/-- `BaseConnector._select_server` (base.py lines 81-141). -/
def select_server (c : Connection) (server : Option String) : Except String Server :=
  match c.servers with
  | [] => .error ("Connection '" ++ c.name ++ "' has no servers configured")
  | first :: _ =>
    match server with
    | none => .ok first
    | some s =>
      let server_str := pyStrip s
      if server_str = "" then .ok first
      else
        match c.servers.find? (fun srv => srv.host == server_str) with
        | some srv => .ok srv
        | none =>
          if server_str.data.contains ':' then
            .error ("Server specification '" ++ server_str ++
              "' must be a hostname without port")
          else
            match c.ssh_tunnel with
            | some ssh =>
              if server_str = ssh.host then
                match c.servers.find? (fun srv => local_hosts.contains srv.host) with
                | some srv => .ok srv
                | none => .error (server_not_found_msg c s)
              else .error (server_not_found_msg c s)
            | none => .error (server_not_found_msg c s)

/-- `db_name = database or self.database`: the database each executor actually
queries with (postgresql/python.py line 37, postgresql/cli.py line 34,
clickhouse/python.py line 94, clickhouse/cli.py line 69).  The `Except` result
records that this step never fails: no executor calls `resolve_database`, so
the allowlist is not consulted on the execute path. -/
def executor_db_choice (c : Connection) (database : Option String) :
    Except String String :=
  .ok (py_or_str database c.database)

/-- The server argument the PostgreSQL CLI executor passes to its selector:
`execute_query` has no `server` parameter and calls `self._select_server()`
(postgresql/cli.py lines 19-22; identically postgresql/python.py line 23). -/
def pg_cli_selected_server (c : Connection) : Except String Server :=
  select_server c none

/-! ### Hard-timeout wrapper — `src/utils/timeout_wrapper.py`

The awaited coroutine is modelled by its outcome: it returned a value, raised
a `TimeoutError` with some message, raised any other exception, or
`asyncio.wait_for`'s deadline expired (which raises a `TimeoutError` whose
message is empty). -/

def backend_error_markers : List String :=
  ["PostgreSQL:", "ClickHouse:", "psql:", "clickhouse-client:", "SSH:"]

/-- `any(prefix in error_msg for prefix in [...])` (timeout_wrapper.py
line 43): a substring test, not a startswith test. -/
def has_backend_marker (msg : String) : Bool :=
  backend_error_markers.any (fun p => containsSub p.data msg.data)

inductive CoroOutcome where
  | ok (v : String)
  | timeoutExn (msg : String)
  | otherExn (msg : String)
  | deadlineExpired
deriving Repr, DecidableEq

inductive WrapOutcome where
  | ok (v : String)
  | timeoutExn (msg : String)
  | otherExn (msg : String)
  | hardTimeout (operationName : String) (timeoutSeconds : Nat)
deriving Repr, DecidableEq

/-- `with_hard_timeout` (timeout_wrapper.py lines 15-53): a `TimeoutError` is
re-raised when its message holds a backend marker and otherwise becomes
`HardTimeoutError`; every other exception propagates; deadline expiry takes
the same `except TimeoutError` branch with an empty message. -/
def with_hard_timeout (outcome : CoroOutcome) (timeoutSeconds : Nat)
    (operationName : String) : WrapOutcome :=
  match outcome with
  | .ok v => .ok v
  | .timeoutExn msg =>
    if has_backend_marker msg then .timeoutExn msg
    else .hardTimeout operationName timeoutSeconds
  | .otherExn msg => .otherExn msg
  | .deadlineExpired =>
    if has_backend_marker "" then .timeoutExn ""
    else .hardTimeout operationName timeoutSeconds

/-- The message of the `asyncio.TimeoutError` raised at postgresql/cli.py
line 128 when the per-line read deadline passes.  This raise happens inside
`execute_query`'s outer `try` (line 68), so the exception never leaves
`execute_query` in this form: the outer handler (`pg_cli_outer_rewrap`
below) prefixes it first. -/
def pg_cli_query_timeout_message (query_timeout : Nat) : String :=
  "Query execution timed out after " ++ natRepr query_timeout ++ "s"

/-- `p` is an initial segment of `s` (Python `str.startswith`). -/
def startsWithL : List Char → List Char → Bool
  | [], _ => true
  | _ :: _, [] => false
  | p :: ps, c :: cs => p == c && startsWithL ps cs

def py_startswith (p s : String) : Bool :=
  startsWithL p.data s.data

/-- The outer exception handlers of `PostgreSQLCLIConnector.execute_query`
(postgresql/cli.py lines 163-170): `except FileNotFoundError` replaces the
message (already `psql:`-prefixed, a non-`TimeoutError`, so it is covered by
the `otherExn` case here), and `except Exception as e` re-raises anything
whose message does not start with `psql:` as `RuntimeError(f"psql: {e}")` —
in particular the `asyncio.TimeoutError` from line 128 leaves
`execute_query` as a `RuntimeError`, not a `TimeoutError`.  A normal return
passes through; `deadlineExpired` is the wrapper-level event and cannot
occur inside `execute_query`, so it is mapped to itself for totality. -/
def pg_cli_outer_rewrap (e : CoroOutcome) : CoroOutcome :=
  match e with
  | .ok v => .ok v
  | .deadlineExpired => .deadlineExpired
  | .timeoutExn msg =>
    if py_startswith "psql:" msg then .timeoutExn msg
    else .otherExn ("psql: " ++ msg)
  | .otherExn msg =>
    if py_startswith "psql:" msg then .otherExn msg
    else .otherExn ("psql: " ++ msg)

/-! ### Streaming and truncation — `src/connectors/clickhouse/python.py`

`_execute_sync_query` builds the TSV incrementally; `append_line`
(clickhouse/python.py lines 204-216) is the byte-accounting step.  The same
closure appears verbatim in postgresql/python.py lines 118-132, and the two
CLI executors inline the identical accounting on each stdout line
(postgresql/cli.py lines 108-120, clickhouse/cli.py lines 132-144). -/

def newline_bytes : Nat := 1

/-- Python's `"\n".join(lines)`. -/
def join_lines : List String → String
  | [] => ""
  | l :: rest => rest.foldl (fun acc r => acc ++ "\n" ++ r) l

structure StreamAcc where
  lines : List String
  total_bytes : Nat
  truncated : Bool
deriving Repr, DecidableEq

def initAcc : StreamAcc := ⟨[], 0, false⟩

def append_line (enforce : Bool) (max_bytes : Nat) (st : StreamAcc)
    (line : String) : StreamAcc × Bool :=
  let encoded := utf8Len line
  let additional := if st.lines.isEmpty then encoded else newline_bytes + encoded
  if enforce && !st.lines.isEmpty && decide (st.total_bytes + additional > max_bytes) then
    ({ st with truncated := true }, false)
  else
    let st' : StreamAcc :=
      { st with lines := st.lines ++ [line],
                total_bytes := st.total_bytes + additional }
    if enforce && decide (st'.total_bytes > max_bytes) then
      ({ st' with truncated := true }, false)
    else (st', true)

/-- The row loop of `_execute_sync_query` (clickhouse/python.py lines
223-239): append each formatted row line, stopping at the first refusal. -/
def stream_rows (enforce : Bool) (max_bytes : Nat) :
    StreamAcc → List String → StreamAcc
  | st, [] => st
  | st, r :: rs =>
    match append_line enforce max_bytes st r with
    | (st', true) => stream_rows enforce max_bytes st' rs
    | (st', false) => st'

/-- `_execute_sync_query` streaming phase (clickhouse/python.py lines
197-241), abstracted over the already-formatted header line (present when the
result has column names) and row lines.  Returns the joined TSV and the
truncated flag. -/
def ch_execute_sync_stream (max_result_bytes : Nat) (header : Option String)
    (rowLines : List String) : String × Bool :=
  let enforce := decide (max_result_bytes > 0)
  match header with
  | some h =>
    match append_line enforce max_result_bytes initAcc h with
    | (st, false) => (join_lines st.lines, true)
    | (st, true) =>
      let fin := stream_rows enforce max_result_bytes st rowLines
      (join_lines fin.lines, fin.truncated)
  | none =>
    let fin := stream_rows enforce max_result_bytes initAcc rowLines
    (join_lines fin.lines, fin.truncated)

def truncation_notice (n : Nat) : String :=
  "[RESULT TRUNCATED: exceeded max_result_bytes=" ++ natRepr n ++ " bytes]"

/-- `execute_query` result assembly (clickhouse/python.py lines 112-114):
append the truncation notice when the stream was truncated.  When the limit is
enforced the notice's `N` equals the streaming budget; when the limit is
disabled the stream is never truncated and no notice appears. -/
def ch_execute_output (max_result_bytes : Nat) (header : Option String)
    (rows : List String) : String × Bool :=
  let r := ch_execute_sync_stream max_result_bytes header rows
  if r.2 then
    ((if r.1 = "" then "" else r.1 ++ "\n") ++ truncation_notice max_result_bytes, true)
  else r

/-- Exact UTF-8 size of lines joined by single newlines. -/
def joined_size : List String → Nat
  | [] => 0
  | l :: rest => rest.foldl (fun n r => n + newline_bytes + utf8Len r) (utf8Len l)

/-! ### Read-only SQL guard — `src/utils/sql_guard.py`

The scanner walks the character list by index, exactly as the Python loops
do; the explicit fuel (`length + 1` suffices since every step advances `i` by
at least one) only makes the recursion structural so that it evaluates by
kernel reduction. -/

structure ScanSt where
  in_single : Bool := false
  in_double : Bool := false
  in_line_comment : Bool := false
  in_block_comment : Nat := 0
  dollar_tag : Option (List Char) := none
deriving Repr, DecidableEq

def is_tag_char (c : Char) : Bool := c.isAlphanum || c = '_'

/-- The `while tag_end < length and (alnum or underscore)` scan of
sql_guard.py lines 176-178. -/
def scan_tag_end (cs : List Char) : Nat → Nat → Nat
  | 0, j => j
  | fuel + 1, j =>
    if j < cs.length && is_tag_char (cs.getD j ' ') then scan_tag_end cs fuel (j + 1)
    else j

/-- Main loop of `_find_semicolons_outside_literals` (sql_guard.py lines
97-189), one branch per Python `continue`. -/
def find_semicolons_go (cs : List Char) : Nat → Nat → ScanSt → List Nat → List Nat
  | 0, _, _, acc => acc
  | fuel + 1, i, st, acc =>
    if i < cs.length then
      let ch := cs.getD i '\x00'
      let nxt := cs.getD (i + 1) '\x00'
      if st.in_line_comment then
        find_semicolons_go cs fuel (i + 1)
          { st with in_line_comment := !(ch = '\r' || ch = '\n') } acc
      else if st.in_block_comment > 0 then
        if ch = '*' && nxt = '/' then
          find_semicolons_go cs fuel (i + 2)
            { st with in_block_comment := st.in_block_comment - 1 } acc
        else if ch = '/' && nxt = '*' then
          find_semicolons_go cs fuel (i + 2)
            { st with in_block_comment := st.in_block_comment + 1 } acc
        else find_semicolons_go cs fuel (i + 1) st acc
      else
        match st.dollar_tag with
        | some tag =>
          if tag.isPrefixOf (cs.drop i) then
            -- a stored tag starts and ends with '$', so it is never empty;
            -- `max _ 1` only keeps the fuel recursion decreasing
            find_semicolons_go cs fuel (i + max tag.length 1)
              { st with dollar_tag := none } acc
          else find_semicolons_go cs fuel (i + 1) st acc
        | none =>
          if st.in_single then
            if ch = '\'' then
              if nxt = '\'' then find_semicolons_go cs fuel (i + 2) st acc
              else find_semicolons_go cs fuel (i + 1) { st with in_single := false } acc
            else find_semicolons_go cs fuel (i + 1) st acc
          else if st.in_double then
            if ch = '"' then
              if nxt = '"' then find_semicolons_go cs fuel (i + 2) st acc
              else find_semicolons_go cs fuel (i + 1) { st with in_double := false } acc
            else find_semicolons_go cs fuel (i + 1) st acc
          else if ch = '-' && nxt = '-' then
            find_semicolons_go cs fuel (i + 2) { st with in_line_comment := true } acc
          else if ch = '/' && nxt = '*' then
            find_semicolons_go cs fuel (i + 2) { st with in_block_comment := 1 } acc
          else if ch = '\'' then
            find_semicolons_go cs fuel (i + 1) { st with in_single := true } acc
          else if ch = '"' then
            find_semicolons_go cs fuel (i + 1) { st with in_double := true } acc
          else if ch = '$' &&
              (scan_tag_end cs cs.length (i + 1) < cs.length &&
                cs.getD (scan_tag_end cs cs.length (i + 1)) ' ' = '$') then
            let tag_end := scan_tag_end cs cs.length (i + 1)
            find_semicolons_go cs fuel (tag_end + 1)
              { st with dollar_tag := some ((cs.drop i).take (tag_end + 1 - i)) } acc
          else if ch = ';' then
            find_semicolons_go cs fuel (i + 1) st (acc ++ [i])
          else
            find_semicolons_go cs fuel (i + 1) st acc
    else acc

def find_semicolons_outside_literals (q : List Char) : List Nat :=
  find_semicolons_go q (q.length + 1) 0 {} []

/-- `i += 2; while i < length and sql[i] not in "\r\n": i += 1` of
`_remove_comments` (sql_guard.py lines 84-87): the loop stops on the newline
character, which the outer loop then keeps. -/
def skip_line (cs : List Char) : Nat → Nat → Nat
  | 0, j => j
  | fuel + 1, j =>
    if j < cs.length && !(cs.getD j ' ' = '\r' || cs.getD j ' ' = '\n') then
      skip_line cs fuel (j + 1)
    else j

/-- `_remove_comments` (sql_guard.py lines 65-94). -/
def remove_comments_go (cs : List Char) : Nat → Nat → Nat → List Char → List Char
  | 0, _, _, acc => acc
  | fuel + 1, i, in_block, acc =>
    if i < cs.length then
      let ch := cs.getD i '\x00'
      let nxt := cs.getD (i + 1) '\x00'
      if in_block > 0 then
        if ch = '*' && nxt = '/' then remove_comments_go cs fuel (i + 2) (in_block - 1) acc
        else if ch = '/' && nxt = '*' then remove_comments_go cs fuel (i + 2) (in_block + 1) acc
        else remove_comments_go cs fuel (i + 1) in_block acc
      else if ch = '-' && nxt = '-' then
        remove_comments_go cs fuel (skip_line cs cs.length (i + 2)) 0 acc
      else if ch = '/' && nxt = '*' then
        remove_comments_go cs fuel (i + 2) 1 acc
      else remove_comments_go cs fuel (i + 1) 0 (acc ++ [ch])
    else acc

def remove_comments (sql : List Char) : List Char :=
  remove_comments_go sql (sql.length + 1) 0 0 []

/-- `_only_trailing_semicolon` (sql_guard.py lines 60-62). -/
def only_trailing_semicolon (q : List Char) (index : Nat) : Bool :=
  (stripL (remove_comments (q.drop (index + 1)))).isEmpty

/-- The alternatives of `_TRANSACTION_PREFIX` (sql_guard.py lines 14-20), in
source order; `\s+` separates the words of a multi-word verb. -/
def transaction_control_verbs : List (List String) :=
  [["COMMIT"], ["ROLLBACK"], ["ABORT"], ["END"], ["BEGIN"],
   ["START", "TRANSACTION"], ["SET", "TRANSACTION"],
   ["SET", "SESSION", "CHARACTERISTICS"], ["SAVEPOINT"],
   ["RELEASE", "SAVEPOINT"], ["ROLLBACK", "TO", "SAVEPOINT"],
   ["PREPARE", "TRANSACTION"], ["COMMIT", "PREPARED"], ["ROLLBACK", "PREPARED"]]

/-- Match the words of one verb, separated by `\s+`, returning the remaining
input. -/
def match_words : List String → List Char → Option (List Char)
  | [], rest => some rest
  | w :: ws, rest =>
    if w.data.isPrefixOf rest then
      let rest' := rest.drop w.data.length
      match ws with
      | [] => some rest'
      | _ :: _ =>
        match rest' with
        | c :: r => if py_ws c then match_words ws (r.dropWhile py_ws) else none
        | [] => none
    else none

/-- The `(\s|;|$)` group closing `_TRANSACTION_PREFIX`. -/
def txn_boundary : List Char → Bool
  | [] => true
  | c :: _ => py_ws c || c = ';'

/-- `_TRANSACTION_PREFIX.match(query.lstrip())` as a boolean
(`_reject_transaction_control`, sql_guard.py lines 54-57); `re.IGNORECASE` is
modelled by uppercasing the input. -/
def matches_transaction_control (q : List Char) : Bool :=
  transaction_control_verbs.any (fun ws =>
    match match_words (ws) (upperL (lstripL q)) with
    | some rest => txn_boundary rest
    | none => false)

/-- `_ensure_single_statement` (sql_guard.py lines 43-51). -/
def ensure_single_statement (q : List Char) : Except String Unit :=
  match find_semicolons_outside_literals q with
  | [] => .ok ()
  | [i] =>
    if only_trailing_semicolon q i then .ok ()
    else .error "Multiple SQL statements are not allowed in read-only mode"
  | _ => .error "Multiple SQL statements are not allowed in read-only mode"

/-- `sanitize_read_only_sql` (sql_guard.py lines 23-40); the argument is
`Option` because Python accepts (and rejects) `None`. -/
def sanitize_read_only_sql (query : Option (List Char)) : Except String (List Char) :=
  match query with
  | none => .error "Query must not be None"
  | some s =>
    let stripped := stripL s
    if stripped.isEmpty then .error "Query must not be empty"
    else
      match ensure_single_statement stripped with
      | .error e => .error e
      | .ok _ =>
        if matches_transaction_control stripped then
          .error "Transaction control statements are not allowed in read-only mode"
        else .ok stripped

/-! ### Registry loader — `src/config/loader.py` -/

def agg_error_message (errors : List String) : String :=
  "Configuration validation failed:\n  - " ++ String.intercalate "\n  - " errors

def duplicate_name_msg (name : String) : String :=
  "Duplicate connection name: '" ++ name ++ "'"

/-- `config.get("connection_name", f"#{idx+1}")` (loader.py line 62). -/
def config_label (cfg : RawConfig) (idx : Nat) : String :=
  match cfg.connection_name with
  | some n => n
  | none => "#" ++ natRepr (idx + 1)

/-- The loop of `load_connections` (loader.py lines 46-63): validate each
record, collect every error, reject duplicate names. -/
def load_connections_go (env : List (String × String)) :
    Nat → List (String × Connection) → List String → List RawConfig →
    List (String × Connection) × List String
  | _, acc, errs, [] => (acc, errs)
  | idx, acc, errs, cfg :: rest =>
    match connection_init cfg env with
    | .ok conn =>
      if (acc.map Prod.fst).contains conn.name then
        load_connections_go env (idx + 1) acc (errs ++ [duplicate_name_msg conn.name]) rest
      else
        load_connections_go env (idx + 1) (acc ++ [(conn.name, conn)]) errs rest
    | .error e =>
      load_connections_go env (idx + 1) acc
        (errs ++ ["Connection '" ++ config_label cfg idx ++ "': " ++ e]) rest

/-- `load_connections` (loader.py lines 43-69) over the already-parsed YAML
list; the file-existence and YAML-shape checks live outside this embedding. -/
def load_connections (raws : List RawConfig) (env : List (String × String)) :
    Except String (List (String × Connection)) :=
  let r := load_connections_go env 0 [] [] raws
  if r.2.isEmpty then .ok r.1 else .error (agg_error_message r.2)

/-! ### Dispatcher `file_path` mode -/

inductive DispatchResult where
  | tsv (body : String)
  | savedPath (p : List String)
deriving Repr, DecidableEq

inductive DispatchError where
  | fileExists (p : List String)
  | connectorError (msg : String)
deriving Repr, DecidableEq

/-- A filesystem snapshot: paths (files or directories) that exist, and file
contents.  Paths are component lists. -/
structure FsState where
  existing : List (List String)
  files : List (List String × String)
deriving Repr, DecidableEq

/-- The proper ancestors (parent directories) of a path. -/
def ancestors (p : List String) : List (List String) :=
  (List.range p.length).map (fun k => p.take k)

/-- Modelled from the spec: the optional `file_path` argument of
`run_query_read_only` (spec §4.7) is missing from `src/server.py` (the tool
registered there takes only `connection_name`, `query`, `server`), while
`tests/test_run_query_file_output.py` exercises it; of its machinery only the
size-cap plumbing (`BaseConnector.disable_result_limit` /
`_effective_max_result_bytes`, base.py lines 179-190) exists under `src/`.
`exec` is the executor invocation and its argument the enforce-limit flag
(`false` ⇒ the cap is disabled for this call, as `disable_result_limit`
arranges); the atomic write appears as one state transition adding the
complete file together with its freshly created parent directories, and the
resolved absolute path of a path is the path itself. -/
def run_query_read_only_dispatch (fs : FsState) (exec : Bool → Except String String)
    (file_path : Option (List String)) :
    Except DispatchError (DispatchResult × FsState) :=
  match file_path with
  | none =>
    match exec true with
    | .error e => .error (.connectorError e)
    | .ok body => .ok (.tsv body, fs)
  | some p =>
    if fs.existing.contains p then .error (.fileExists p)
    else
      match exec false with
      | .error e => .error (.connectorError e)
      | .ok body =>
        .ok (.savedPath p,
          { existing := p :: (ancestors p ++ fs.existing),
            files := (p, body) :: fs.files })

/-! ### Concrete fixtures used by the closed theorems below -/

/-- A plain two-server PostgreSQL record, as the YAML loader would hand it to
`Connection.__init__`. -/
def cfgA : RawConfig :=
  { connection_name := some "prod", type := some "postgresql",
    servers := [.mapForm (some "db1.example.com") (some 5432),
                .mapForm (some "db2.example.com") (some 5432)],
    db := some "main", username := some "u", password := some "pw" }

/-- The validated descriptor `cfgA` loads to (checked by `connection_init` in
the theorems below). -/
def connA : Connection :=
  { name := "prod", db_type := "postgresql",
    servers := [⟨"db1.example.com", 5432⟩, ⟨"db2.example.com", 5432⟩],
    database := "main", allowed_databases := ["main"], username := "u",
    password := "pw", implementation := "cli", ssh_tunnel := none,
    query_timeout := 120, connection_timeout := 10,
    max_result_bytes := some 10000000, description := "" }

/-- An SSH-tunnelled descriptor with an explicit tunnel timeout. -/
def connS : Connection :=
  { name := "chs", db_type := "clickhouse",
    servers := [⟨"localhost", 9000⟩],
    database := "default", allowed_databases := ["default"], username := "u",
    password := "", implementation := "python",
    ssh_tunnel := some { host := "bastion.example.com", port := 22,
                         user := "tunnel", private_key := some "/home/u/.ssh/key",
                         ssh_timeout := some 7 },
    query_timeout := 120, connection_timeout := 10,
    max_result_bytes := some 10000000, description := "" }

/-- A header line one byte past the default 10 MB cap. -/
def big_line : String := String.mk (List.replicate 10000001 'a')

/-- `cfgA` with `max_result_bytes: 0` written explicitly. -/
def cfg_zero : RawConfig := { cfgA with max_result_bytes := some (some 0) }

/-- The descriptor `cfg_zero` loads to. -/
def conn_zero : Connection := { connA with max_result_bytes := some 0 }

end Spec2Proof

namespace Spec2Proof

theorem pyStrip_example : pyStrip "  SELECT 1  " = "SELECT 1" := by decide

theorem containsSub_example : containsSub "SSH:".data "boom SSH: down".data = true := by decide

theorem natRepr_example : natRepr 1350 = "1350" := by decide

theorem utf8Len_example : utf8Len "ab\n" = 3 := by decide

theorem guard_example1 :
    sanitize_read_only_sql (some "  SELECT 1;  ".data) = .ok "SELECT 1;".data := by
  decide

theorem guard_example2 :
    sanitize_read_only_sql (some "COMMIT; DROP TABLE t".data) =
      .error "Multiple SQL statements are not allowed in read-only mode" := by
  decide

theorem guard_example3 :
    sanitize_read_only_sql (some "commit".data) =
      .error "Transaction control statements are not allowed in read-only mode" := by
  decide

theorem guard_example4 :
    sanitize_read_only_sql (some "SELECT '$a$; x'; -- c".data) =
      .ok "SELECT '$a$; x'; -- c".data := by
  decide

theorem guard_example5 :
    sanitize_read_only_sql (some "SELECT $tag$ a; b $tag$ ; /* x; */".data) =
      .ok "SELECT $tag$ a; b $tag$ ; /* x; */".data := by
  decide

theorem guard_example7 :
    sanitize_read_only_sql (some "END OF x".data) =
      .error "Transaction control statements are not allowed in read-only mode" := by
  decide

theorem guard_example8 :
    sanitize_read_only_sql (some "ENDS x".data) = .ok "ENDS x".data := by
  decide

theorem guard_example9 :
    sanitize_read_only_sql (some "set  transaction x".data) =
      .error "Transaction control statements are not allowed in read-only mode" := by
  decide

theorem guard_example10 :
    find_semicolons_outside_literals "$1$ ; $1$".data = [] := by decide

theorem guard_example11 :
    find_semicolons_outside_literals "a;b;c".data = [1, 3] := by decide

theorem stream_example1 :
    ch_execute_sync_stream 5 none ["aaaaaaaaaa"] = ("aaaaaaaaaa", true) := by decide

theorem stream_example2 :
    ch_execute_sync_stream 5 (some "hdr") ["aa", "bb"] = ("hdr", true) := by decide

theorem stream_example3 :
    ch_execute_sync_stream 10 (some "hdr") ["aa", "bb", "cc"] = ("hdr\naa\nbb", true) := by
  decide

theorem stream_example4 :
    ch_execute_sync_stream 0 (some "hdr") ["aa", "bb"] = ("hdr\naa\nbb", false) := by
  decide

theorem stream_example5 :
    ch_execute_sync_stream 3 (some "hdrr") [] = ("hdrr", true) := by decide

theorem stream_example6 :
    ch_execute_sync_stream 3 (some "hdrr") ["a"] = ("hdrr", true) := by decide

theorem stream_example7 :
    ch_execute_output 8 (some "hdr") ["aa", "bb"] =
      ("hdr\naa\n[RESULT TRUNCATED: exceeded max_result_bytes=8 bytes]", true) := by
  decide

theorem guard_example12 :
    sanitize_read_only_sql (some "SELECT \";\" ; /* ; /* ; */ ; */".data) =
      .ok "SELECT \";\" ; /* ; /* ; */ ; */".data := by
  decide

theorem guard_example6 :
    sanitize_read_only_sql (some "SET search_path = x".data) =
      .ok "SET search_path = x".data := by
  decide

def exampleCfg : RawConfig :=
  { connection_name := some "my-conn", type := some "postgresql",
    servers := [.strForm "dbhost", .strForm "other:5433"],
    db := some "maindb", username := some "u", password := some "p" }

theorem connection_init_example :
    connection_init exampleCfg [] =
      .ok { name := "my-conn", db_type := "postgresql",
            servers := [⟨"dbhost", 5432⟩, ⟨"other", 5433⟩],
            database := "maindb", allowed_databases := ["maindb"],
            username := "u", password := "p", implementation := "cli",
            ssh_tunnel := none, query_timeout := 120, connection_timeout := 10,
            max_result_bytes := some 10000000, description := "" } := by
  rfl

end Spec2Proof


namespace Spec2Proof

/-! ## Helper lemmas -/

theorem except_bind_ok {ε α β : Type} (e : Except ε α) (f : α → Except ε β) (c : β) :
    (e >>= f) = .ok c ↔ ∃ a, e = .ok a ∧ f a = .ok c := by
  cases e <;> simp [Bind.bind, Except.bind]

theorem guardE_ok {b : Bool} {msg : String} {u : Unit} (h : guardE b msg = .ok u) :
    b = false := by
  cases b <;> simp [guardE] at h ⊢

theorem contains_mem {l : List String} {x : String} (h : l.contains x = true) :
    x ∈ l := by
  simpa using h

theorem finalize_allowed_ok {d : String} {al : List String} {d' : String}
    {a : List String} (h : finalize_allowed d al = .ok (d', a)) :
    d' = d ∧ d ≠ "" ∧ ((al = [] ∧ a = [d]) ∨ (a = al ∧ d ∈ al)) := by
  unfold finalize_allowed at h
  split at h
  · exact absurd h (by simp)
  next hne =>
    split at h
    · next hemp =>
      rw [Except.ok.injEq, Prod.mk.injEq] at h
      obtain ⟨h1, h2⟩ := h
      exact ⟨h1.symm, hne, Or.inl ⟨List.isEmpty_iff.mp hemp, h2.symm.trans (by rw [h1])⟩⟩
    · split at h
      · next hemp hcont =>
        rw [Except.ok.injEq, Prod.mk.injEq] at h
        obtain ⟨h1, h2⟩ := h
        subst h1
        subst h2
        exact ⟨rfl, hne, Or.inr ⟨rfl, contains_mem hcont⟩⟩
      · exact absurd h (by simp)

/-- Success inversion for the database-resolution stage: the default is a
member of the final allowlist; with no configured allowlist the result is the
singleton of the default; with no configured default the default is the
stripped head of the allowlist. -/
theorem resolve_db_config_ok {cfg : RawConfig} {d : String} {a : List String}
    (h : resolve_db_config cfg = .ok (d, a)) :
    d ∈ a ∧
    (cfg.allowed_databases = none → cfg.databases = none → a = [d]) ∧
    (cfg.db = none → cfg.default_database = none →
      ∃ hd tl, a = hd :: tl ∧ d = pyStrip hd) := by
  unfold resolve_db_config at h
  split at h
  · exact absurd h (by simp)
  next al hal =>
    split at h
    · exact absurd h (by simp)
    next hmm =>
      obtain ⟨hd', hne, hcase⟩ := finalize_allowed_ok h
      subst hd'
      refine ⟨?_, ?_, ?_⟩
      · rcases hcase with ⟨_, ha⟩ | ⟨ha, hmem⟩
        · rw [ha]; exact List.mem_singleton_self _
        · rw [ha]; exact hmem
      · intro h1 h2
        have hal0 : al = [] := by
          unfold normalized_allowed allowed_raw_of at hal
          rw [h1, h2] at hal
          exact (Except.ok.injEq _ _).mp hal |>.symm
        rcases hcase with ⟨_, ha⟩ | ⟨ha, hmem⟩
        · exact ha
        · subst hal0; exact absurd hmem (List.not_mem_nil _)
      · intro h1 h2
        cases hcal : al with
        | nil =>
          subst hcal
          refine absurd ?_ hne
          unfold default_db_of
          rw [h1, h2]
          decide
        | cons hd tl =>
          subst hcal
          have hdd : default_db_of cfg (hd :: tl) = pyStrip hd := by
            unfold default_db_of
            rw [h1, h2]
            simp
          rcases hcase with ⟨hnil, _⟩ | ⟨ha, _⟩
          · exact absurd hnil (by simp)
          · exact ⟨hd, tl, ha, hdd⟩

end Spec2Proof

namespace Spec2Proof

/-- Success inversion for `Connection.__init__`: how the stored fields relate
to the raw record. -/
theorem connection_init_ok_inv {cfg : RawConfig} {env : List (String × String)}
    {c : Connection} (h : connection_init cfg env = .ok c) :
    resolve_db_config cfg = .ok (c.database, c.allowed_databases) ∧
    c.max_result_bytes = (match cfg.max_result_bytes with
      | none => some DEFAULT_MAX_RESULT_BYTES
      | some v => v) ∧
    c.query_timeout = cfg.query_timeout.getD DEFAULT_QUERY_TIMEOUT ∧
    c.connection_timeout = cfg.connection_timeout.getD DEFAULT_CONNECTION_TIMEOUT ∧
    (∃ n, cfg.connection_name = some n ∧ c.name = n) := by
  unfold connection_init at h
  simp only [except_bind_ok] at h
  obtain ⟨nm, hnm, t, ht, u1, hu1, u2, hu2, un, hun, u3, hu3, u4, hu4, pw, hpw,
    u5, hu5, dbres, hdb, srv, hsrv, ssh, hssh, h⟩ := h
  simp only [pure, Except.pure, Except.ok.injEq] at h
  subst h
  refine ⟨?_, rfl, rfl, rfl, ⟨nm, ?_, rfl⟩⟩
  · simpa using hdb
  · unfold required at hnm
    cases hcn : cfg.connection_name with
    | none => rw [hcn] at hnm; exact absurd hnm (by simp)
    | some n =>
      rw [hcn] at hnm
      simp only [Except.ok.injEq] at hnm
      rw [hnm]

end Spec2Proof

namespace Spec2Proof

theorem rsplit1_eq_none {sep : Char} {cs : List Char} (h : cs.contains sep = false) :
    rsplit1 sep cs = none := by
  induction cs with
  | nil => rfl
  | cons c rest ih =>
    simp only [List.contains_cons, Bool.or_eq_false_iff, beq_eq_false_iff_ne] at h
    rw [rsplit1, ih (by simpa using h.2)]
    simp only [ite_eq_right_iff]
    intro hc
    exact absurd hc.symm h.1

/-- C10: a bare-hostname server entry (no colon) gets the default port
determined by engine and implementation — 5432 for postgresql, 9000 for
clickhouse under the cli implementation and 8123 otherwise — and validation
fails for any other engine type, so every validated `Server` carries an
explicit numeric port. -/
theorem c10_default_ports (s : String) (impl : String)
    (hnc : s.data.contains ':' = false) :
    server_from_dict (.strForm s) "postgresql" impl = .ok ⟨s, 5432⟩ ∧
    server_from_dict (.strForm s) "clickhouse" "cli" = .ok ⟨s, 9000⟩ ∧
    (impl ≠ "cli" → server_from_dict (.strForm s) "clickhouse" impl = .ok ⟨s, 8123⟩) ∧
    (∀ t, t ≠ "postgresql" → t ≠ "clickhouse" →
      server_from_dict (.strForm s) t impl =
        .error ("Cannot determine default port for server '" ++ s ++
          "' without database type")) := by
  have hsp := rsplit1_eq_none hnc
  refine ⟨?_, ?_, ?_, ?_⟩
  · simp [server_from_dict, hsp]
  · simp [server_from_dict, hsp]
  · intro h
    simp [server_from_dict, hsp, h]
  · intro t h1 h2
    simp [server_from_dict, hsp, h1, h2]

theorem c10_default_ports_witness :
    server_from_dict (.strForm "dbhost") "postgresql" "python" = .ok ⟨"dbhost", 5432⟩ ∧
    server_from_dict (.strForm "dbhost") "clickhouse" "cli" = .ok ⟨"dbhost", 9000⟩ ∧
    server_from_dict (.strForm "dbhost") "clickhouse" "python" = .ok ⟨"dbhost", 8123⟩ ∧
    server_from_dict (.strForm "dbhost") "mysql" "python" =
      .error "Cannot determine default port for server 'dbhost' without database type" := by
  have h := c10_default_ports "dbhost" "python" (by decide)
  exact ⟨h.1, h.2.1, h.2.2.1 (by decide), h.2.2.2 "mysql" (by decide) (by decide)⟩

/-- C2 counterexample: an `execute` call that supplies a database outside the
allowlist does not fail — the executors pick `database or self.database`
without consulting the allowlist, so the query is sent with the disallowed
name; only the (never-called) `Connection.resolve_database` would reject it. -/
theorem c2_counterexample :
    executor_db_choice connA (some "secrets") = .ok "secrets" ∧
    connA.allowed_databases.contains "secrets" = false ∧
    resolve_database connA (some "secrets") =
      .error "Database 'secrets' is not allowed for connection 'prod'. Allowed databases: main" := by
  refine ⟨rfl, by decide, by decide⟩

/-- C2 as amended: `Connection.resolve_database` implements the claimed
behaviour (absent/empty → default, non-member → `DatabaseNotAllowed` listing
the allowlist), but every executor's `execute` resolves the database as
`database or self.database`, which never fails and applies no allowlist
check. -/
theorem c2_database_resolution (c : Connection) (d : String) (db : Option String) :
    resolve_database c none = .ok c.database ∧
    (pyStrip d = "" → resolve_database c (some d) = .ok c.database) ∧
    (pyStrip d ≠ "" → c.allowed_databases.contains (pyStrip d) = true →
      resolve_database c (some d) = .ok (pyStrip d)) ∧
    (pyStrip d ≠ "" → c.allowed_databases.contains (pyStrip d) = false →
      resolve_database c (some d) = .error ("Database '" ++ pyStrip d ++
        "' is not allowed for connection '" ++ c.name ++ "'. Allowed databases: " ++
        String.intercalate ", " c.allowed_databases)) ∧
    executor_db_choice c db = .ok (py_or_str db c.database) := by
  refine ⟨rfl, ?_, ?_, ?_, rfl⟩
  · intro h1
    simp [resolve_database, h1]
  · intro h1 h2
    simp [resolve_database, h1, h2]
    exact contains_mem h2
  · intro h1 h2
    simp [resolve_database, h1, h2]
    simpa using h2

theorem c2_database_resolution_witness :
    resolve_database connA none = .ok connA.database ∧
    resolve_database connA (some "  ") = .ok connA.database ∧
    resolve_database connA (some " main ") = .ok (pyStrip " main ") ∧
    resolve_database connA (some "secrets") =
      .error ("Database '" ++ pyStrip "secrets" ++ "' is not allowed for connection '" ++
        connA.name ++ "'. Allowed databases: " ++
        String.intercalate ", " connA.allowed_databases) ∧
    executor_db_choice connA (some "anything") = .ok (py_or_str (some "anything") connA.database) := by
  refine ⟨(c2_database_resolution connA "x" none).1,
    (c2_database_resolution connA "  " none).2.1 (by decide),
    (c2_database_resolution connA " main " none).2.2.1 (by decide) (by decide),
    (c2_database_resolution connA "secrets" none).2.2.2.1 (by decide) (by decide),
    (c2_database_resolution connA "x" (some "anything")).2.2.2.2⟩

/-- C6 counterexample: for a connection without an SSH tunnel the hard timeout
is `DEFAULT_SSH_TIMEOUT + connection + query = 135`, not
`0 + connection + query = 130` as claimed. -/
theorem c6_counterexample :
    connection_init cfgA [] = .ok connA ∧
    connA.ssh_tunnel = none ∧
    connector_hard_timeout connA = 135 ∧
    0 + connA.connection_timeout + connA.query_timeout = 130 ∧
    connector_hard_timeout connA ≠ 0 + connA.connection_timeout + connA.query_timeout := by
  exact ⟨by rfl, rfl, by decide, by decide, by decide⟩

/-- C6 as amended: the hard timeout is the sum of the SSH, connection and
query timeouts, where the SSH term is the tunnel's configured positive
`ssh_timeout` when present and otherwise `DEFAULT_SSH_TIMEOUT = 5` — also
when no SSH tunnel is configured at all (never 0). -/
theorem c6_hard_timeout (c : Connection) :
    connector_hard_timeout c =
      connector_ssh_timeout c + c.connection_timeout + c.query_timeout ∧
    (c.ssh_tunnel = none → connector_ssh_timeout c = DEFAULT_SSH_TIMEOUT) ∧
    (∀ ssh t, c.ssh_tunnel = some ssh → ssh.ssh_timeout = some t → t ≠ 0 →
      connector_ssh_timeout c = t) ∧
    (∀ ssh, c.ssh_tunnel = some ssh → ssh.ssh_timeout = none →
      connector_ssh_timeout c = DEFAULT_SSH_TIMEOUT) := by
  refine ⟨rfl, ?_, ?_, ?_⟩
  · intro h
    simp [connector_ssh_timeout, h]
  · intro ssh t h1 h2 h3
    simp [connector_ssh_timeout, h1, h2, h3]
  · intro ssh h1 h2
    simp [connector_ssh_timeout, h1, h2]

theorem c6_hard_timeout_witness :
    connector_hard_timeout connA = 135 ∧
    connector_ssh_timeout connA = DEFAULT_SSH_TIMEOUT ∧
    connector_hard_timeout connS = 137 ∧
    connector_ssh_timeout connS =
      ({ host := "bastion.example.com", port := 22, user := "tunnel",
         private_key := some "/home/u/.ssh/key",
         ssh_timeout := some 7 } : SSHTunnelConfig).ssh_timeout.getD 0 := by
  have h1 := c6_hard_timeout connA
  have h2 := c6_hard_timeout connS
  refine ⟨by decide, h1.2.1 rfl, by decide, ?_⟩
  have := h2.2.2.1 _ 7 rfl rfl (by decide)
  simpa using this

theorem pg_timeout_msg_not_psql (q : Nat) :
    py_startswith "psql:" (pg_cli_query_timeout_message q) = false := by
  unfold py_startswith pg_cli_query_timeout_message
  rw [String.data_append, String.data_append]
  rw [show ("Query execution timed out after " : String).data =
    'Q' :: ("uery execution timed out after " : String).data from rfl]
  rw [List.cons_append, List.cons_append]
  rw [show ("psql:" : String).data = 'p' :: ("sql:" : String).data from rfl]
  simp [startsWithL, show ('p' == 'Q') = false from rfl]

/-- C5: errors whose message carries a backend marker propagate unchanged
through `with_hard_timeout` and are never rewrapped (as do plain results and
non-`TimeoutError` exceptions), and for every coroutine outcome the program
can deliver — every `TimeoutError` it raises to the wrapper carries a
backend marker — `HardTimeoutError` arises exactly on deadline expiry.  The
outcome cited by the claim's source (postgresql/cli.py lines 122-128)
satisfies that condition: the unmarked `asyncio.TimeoutError` raised at line
128 is caught by `execute_query`'s own `except Exception` (lines 165-170)
and leaves as `RuntimeError("psql: ...")`, a non-`TimeoutError` that the
wrapper propagates unchanged — never as `HardTimeoutError`. -/
theorem c5_hard_timeout_wrapper (t q : Nat) (opName msg v : String)
    (out : CoroOutcome)
    (hreal : ∀ m, out = CoroOutcome.timeoutExn m → has_backend_marker m = true) :
    (has_backend_marker msg = true →
      with_hard_timeout (.timeoutExn msg) t opName = .timeoutExn msg) ∧
    with_hard_timeout (.otherExn msg) t opName = .otherExn msg ∧
    with_hard_timeout (.ok v) t opName = .ok v ∧
    (with_hard_timeout out t opName = .hardTimeout opName t ↔
      out = .deadlineExpired) ∧
    pg_cli_outer_rewrap (.timeoutExn (pg_cli_query_timeout_message q)) =
      .otherExn ("psql: " ++ pg_cli_query_timeout_message q) ∧
    with_hard_timeout
        (pg_cli_outer_rewrap (.timeoutExn (pg_cli_query_timeout_message q))) t opName =
      .otherExn ("psql: " ++ pg_cli_query_timeout_message q) := by
  have hrw : pg_cli_outer_rewrap (.timeoutExn (pg_cli_query_timeout_message q)) =
      .otherExn ("psql: " ++ pg_cli_query_timeout_message q) := by
    rw [show pg_cli_outer_rewrap (.timeoutExn (pg_cli_query_timeout_message q)) =
      (if py_startswith "psql:" (pg_cli_query_timeout_message q) then
        CoroOutcome.timeoutExn (pg_cli_query_timeout_message q)
      else .otherExn ("psql: " ++ pg_cli_query_timeout_message q)) from rfl]
    rw [pg_timeout_msg_not_psql q]
    simp
  refine ⟨?_, rfl, rfl, ?_, hrw, ?_⟩
  · intro h
    simp [with_hard_timeout, h]
  · constructor
    · intro hout
      cases out with
      | ok v' => simp [with_hard_timeout] at hout
      | otherExn m => simp [with_hard_timeout] at hout
      | deadlineExpired => rfl
      | timeoutExn m =>
        rw [show with_hard_timeout (.timeoutExn m) t opName = .timeoutExn m by
          simp [with_hard_timeout, hreal m rfl]] at hout
        exact absurd hout (by simp)
    · intro hout
      rw [hout]
      unfold with_hard_timeout
      rw [show has_backend_marker "" = false from by decide]
      simp
  · rw [hrw]
    rfl

theorem c5_hard_timeout_wrapper_witness :
    (∀ m, CoroOutcome.timeoutExn
      "PostgreSQL: canceling statement due to statement timeout" =
        CoroOutcome.timeoutExn m → has_backend_marker m = true) ∧
    with_hard_timeout
        (.timeoutExn "PostgreSQL: canceling statement due to statement timeout") 135 "op" =
      .timeoutExn "PostgreSQL: canceling statement due to statement timeout" ∧
    (with_hard_timeout
        (.timeoutExn "PostgreSQL: canceling statement due to statement timeout") 135 "op" =
          .hardTimeout "op" 135 ↔
      (CoroOutcome.timeoutExn "PostgreSQL: canceling statement due to statement timeout" =
        CoroOutcome.deadlineExpired)) ∧
    with_hard_timeout
        (pg_cli_outer_rewrap (.timeoutExn (pg_cli_query_timeout_message 120))) 135 "op" =
      .otherExn ("psql: " ++ pg_cli_query_timeout_message 120) := by
  have hreal : ∀ m, CoroOutcome.timeoutExn
      "PostgreSQL: canceling statement due to statement timeout" =
        CoroOutcome.timeoutExn m → has_backend_marker m = true := by
    intro m hm
    cases hm
    decide
  have h := c5_hard_timeout_wrapper 135 120 "op"
    "PostgreSQL: canceling statement due to statement timeout" "x"
    (.timeoutExn "PostgreSQL: canceling statement due to statement timeout") hreal
  exact ⟨hreal, h.1 (by decide), h.2.2.2.1, h.2.2.2.2.2⟩

end Spec2Proof

namespace Spec2Proof

theorem ensure_single_statement_ok {q : List Char}
    (h : ensure_single_statement q = .ok ()) :
    (find_semicolons_outside_literals q).length ≤ 1 ∧
    ∀ i, find_semicolons_outside_literals q = [i] →
      only_trailing_semicolon q i = true := by
  unfold ensure_single_statement at h
  split at h
  · next heq =>
    rw [heq]
    exact ⟨by simp, fun i hi => by simp at hi⟩
  · next i heq =>
    rw [heq]
    split at h
    · next htrail =>
      refine ⟨by simp, fun i' hi' => ?_⟩
      rw [List.cons.injEq] at hi'
      rw [← hi'.1]
      exact htrail
    · exact absurd h (by simp)
  · exact absurd h (by simp)

/-- C1: every query string the PostgreSQL read-only guard accepts is the
stripped input and satisfies: at most one semicolon outside quoted literals,
dollar-quoted blocks and comments; if there is one such semicolon, everything
after it reduces to nothing once comments are removed and whitespace is
stripped; the accepted string does not begin, case-insensitively, with any
transaction-control verb of the fixed set; and `None` or empty input is
always rejected. -/
theorem c1_guard :
    (∀ q out, sanitize_read_only_sql (some q) = .ok out →
      out = stripL q ∧
      (find_semicolons_outside_literals out).length ≤ 1 ∧
      (∀ i, find_semicolons_outside_literals out = [i] →
        stripL (remove_comments (out.drop (i + 1))) = []) ∧
      matches_transaction_control out = false) ∧
    sanitize_read_only_sql none = .error "Query must not be None" ∧
    (∀ q, stripL q = [] →
      sanitize_read_only_sql (some q) = .error "Query must not be empty") := by
  refine ⟨?_, rfl, ?_⟩
  · intro q out h
    simp only [sanitize_read_only_sql] at h
    split at h
    · exact absurd h (by simp)
    next hne =>
      split at h
      · exact absurd h (by simp)
      next a hok =>
        cases a
        split at h
        · exact absurd h (by simp)
        next hmatch =>
          rw [Except.ok.injEq] at h
          subst h
          obtain ⟨hlen, htrail⟩ := ensure_single_statement_ok hok
          refine ⟨rfl, hlen, ?_, by simpa using hmatch⟩
          intro i hi
          have := htrail i hi
          unfold only_trailing_semicolon at this
          exact List.isEmpty_iff.mp this
  · intro q hq
    unfold sanitize_read_only_sql
    simp [hq]

theorem c1_guard_witness :
    ("SELECT 1; -- done".data : List Char) = stripL "SELECT 1; -- done".data ∧
    (find_semicolons_outside_literals "SELECT 1; -- done".data).length ≤ 1 ∧
    matches_transaction_control "SELECT 1; -- done".data = false := by
  have h := c1_guard.1 "SELECT 1; -- done".data "SELECT 1; -- done".data (by decide)
  exact ⟨h.1, h.2.1, h.2.2.2⟩

end Spec2Proof

namespace Spec2Proof

/-! ## Byte accounting lemmas -/

theorem utf8_foldl_shift (l : List Char) (n : Nat) :
    l.foldl (fun n c => n + c.utf8Size) n = n + l.foldl (fun n c => n + c.utf8Size) 0 := by
  induction l generalizing n with
  | nil => simp
  | cons c t ih =>
    rw [List.foldl_cons, List.foldl_cons, ih (n + c.utf8Size), ih (0 + c.utf8Size)]
    omega

theorem utf8Len_append (a b : String) :
    utf8Len (a ++ b) = utf8Len a + utf8Len b := by
  unfold utf8Len
  rw [String.data_append, List.foldl_append, utf8_foldl_shift]

theorem joined_foldl_shift (rest : List String) (n m : Nat) :
    rest.foldl (fun acc r => acc + newline_bytes + utf8Len r) (n + m) =
      n + rest.foldl (fun acc r => acc + newline_bytes + utf8Len r) m := by
  induction rest generalizing m with
  | nil => simp
  | cons r rs ih =>
    rw [List.foldl_cons, List.foldl_cons, show n + m + newline_bytes + utf8Len r =
      n + (m + newline_bytes + utf8Len r) by omega, ih]

theorem joined_size_append_one (ls : List String) (r : String) :
    joined_size (ls ++ [r]) =
      joined_size ls + (if ls.isEmpty then utf8Len r else newline_bytes + utf8Len r) := by
  cases ls with
  | nil => simp [joined_size]
  | cons l t =>
    simp only [List.cons_append, joined_size, List.foldl_append, List.foldl_cons,
      List.foldl_nil, List.isEmpty_cons, if_neg Bool.false_ne_true]
    omega

theorem utf8Len_join_foldl (rest : List String) (l : String) :
    utf8Len (rest.foldl (fun acc r => acc ++ "\n" ++ r) l) =
      rest.foldl (fun acc r => acc + newline_bytes + utf8Len r) (utf8Len l) := by
  induction rest generalizing l with
  | nil => rfl
  | cons r rs ih =>
    rw [List.foldl_cons, List.foldl_cons, ih, utf8Len_append, utf8Len_append]
    rfl

/-- The joined TSV's exact UTF-8 byte count is `joined_size` of its lines. -/
theorem utf8Len_join_lines (ls : List String) :
    utf8Len (join_lines ls) = joined_size ls := by
  cases ls with
  | nil => rfl
  | cons l t => exact utf8Len_join_foldl t l

theorem join_lines_singleton (s : String) : join_lines [s] = s := rfl

/-! ## Streaming lemmas -/

theorem append_line_no_limit (maxB : Nat) (st : StreamAcc) (line : String) :
    append_line false maxB st line =
      ({ st with lines := st.lines ++ [line],
                 total_bytes := st.total_bytes +
                   (if st.lines.isEmpty then utf8Len line
                    else newline_bytes + utf8Len line) }, true) := by
  simp [append_line]

theorem stream_rows_no_limit (maxB : Nat) (rows : List String) (st : StreamAcc) :
    (stream_rows false maxB st rows).lines = st.lines ++ rows ∧
    (stream_rows false maxB st rows).truncated = st.truncated := by
  induction rows generalizing st with
  | nil => simp [stream_rows]
  | cons r rs ih =>
    rw [stream_rows, append_line_no_limit]
    have h := ih { st with lines := st.lines ++ [r],
                           total_bytes := st.total_bytes +
                             (if st.lines.isEmpty then utf8Len r
                              else newline_bytes + utf8Len r) }
    simp only at h
    rw [List.append_assoc] at h
    simpa using h

end Spec2Proof

namespace Spec2Proof

theorem isEmpty_false_of_ne_nil {α : Type} {l : List α} (h : l ≠ []) :
    l.isEmpty = false := by
  cases l with
  | nil => exact absurd rfl h
  | cons a t => rfl

/-- With the limit enforced and a nonempty accumulator, a line whose addition
would pass the cap is refused: the accumulator is only marked truncated. -/
theorem append_line_drop {maxB : Nat} {st : StreamAcc} {line : String}
    (hne : st.lines ≠ [])
    (hover : st.total_bytes + (newline_bytes + utf8Len line) > maxB) :
    append_line true maxB st line = ({ st with truncated := true }, false) := by
  unfold append_line
  rw [isEmpty_false_of_ne_nil hne]
  simp [hover]

/-- With the limit enforced and a nonempty accumulator, a line that fits is
appended and the call succeeds. -/
theorem append_line_keep {maxB : Nat} {st : StreamAcc} {line : String}
    (hne : st.lines ≠ [])
    (hfits : st.total_bytes + (newline_bytes + utf8Len line) ≤ maxB) :
    append_line true maxB st line =
      ({ st with lines := st.lines ++ [line],
                 total_bytes := st.total_bytes + (newline_bytes + utf8Len line) }, true) := by
  unfold append_line
  rw [isEmpty_false_of_ne_nil hne]
  have h1 : ¬ (st.total_bytes + (newline_bytes + utf8Len line) > maxB) := by omega
  simp [h1]

/-- The first line is always appended, no matter the budget; the call reports
failure exactly when that line alone already passes the cap. -/
theorem append_line_first (maxB : Nat) (line : String) :
    append_line true maxB initAcc line =
      ({ lines := [line], total_bytes := utf8Len line,
         truncated := decide (utf8Len line > maxB) },
       !decide (utf8Len line > maxB)) := by
  unfold append_line initAcc
  by_cases hover : utf8Len line > maxB
  · simp [hover]
  · simp [hover]

/-- Row loop with the limit enforced: some prefix of the rows is appended;
the stream is truncated exactly when the prefix is proper, and then the first
dropped row is exactly the one whose addition would pass the cap. -/
theorem stream_rows_spec (maxB : Nat) (rows : List String) (st : StreamAcc)
    (hne : st.lines ≠ []) (htr : st.truncated = false)
    (htb : st.total_bytes = joined_size st.lines) (hle : st.total_bytes ≤ maxB) :
    ∃ k, k ≤ rows.length ∧
      (stream_rows true maxB st rows).lines = st.lines ++ rows.take k ∧
      (stream_rows true maxB st rows).truncated = decide (k < rows.length) ∧
      (k < rows.length →
        joined_size (st.lines ++ rows.take (k + 1)) > maxB ∧
        joined_size (st.lines ++ rows.take k) ≤ maxB) := by
  induction rows generalizing st with
  | nil =>
    refine ⟨0, by simp, by simp [stream_rows], by simp [stream_rows, htr], by simp⟩
  | cons r rs ih =>
    by_cases hover : st.total_bytes + (newline_bytes + utf8Len r) > maxB
    · refine ⟨0, by simp, ?_, ?_, ?_⟩
      · rw [stream_rows, append_line_drop hne hover]
        simp
      · rw [stream_rows, append_line_drop hne hover]
        simp
      · intro _
        constructor
        · rw [List.take_succ_cons, List.take_zero]
          rw [joined_size_append_one, isEmpty_false_of_ne_nil hne]
          simp only [if_neg Bool.false_ne_true]
          omega
        · rw [List.take_zero, List.append_nil, ← htb]
          exact hle
    · have hfits : st.total_bytes + (newline_bytes + utf8Len r) ≤ maxB := by omega
      have hkeep := append_line_keep hne hfits
      set st2 : StreamAcc :=
        { st with lines := st.lines ++ [r],
                  total_bytes := st.total_bytes + (newline_bytes + utf8Len r) } with hst2
      have hne2 : st2.lines ≠ [] := by simp [hst2]
      have htb2 : st2.total_bytes = joined_size st2.lines := by
        rw [hst2]
        simp only
        rw [joined_size_append_one, isEmpty_false_of_ne_nil hne,
          if_neg Bool.false_ne_true, htb]
      have happ : ∀ (l : List String), st.lines ++ r :: l = st2.lines ++ l := by
        intro l
        rw [hst2]
        simp
      obtain ⟨k, hk, hlines, htrunc, hbytes⟩ :=
        ih st2 hne2 htr htb2 (by rw [hst2]; simpa using hfits)
      refine ⟨k + 1, by simpa using hk, ?_, ?_, ?_⟩
      · rw [stream_rows, hkeep, hlines, List.take_succ_cons, happ]
      · rw [stream_rows, hkeep, htrunc]
        simp [Nat.succ_lt_succ_iff]
      · intro hklt
        have hklt2 : k < rs.length := by
          simp only [List.length_cons] at hklt
          omega
        obtain ⟨hb1, hb2⟩ := hbytes hklt2
        constructor
        · rw [List.take_succ_cons, happ]
          exact hb1
        · rw [List.take_succ_cons, happ]
          exact hb2

end Spec2Proof

namespace Spec2Proof

theorem ch_stream_header_over (maxB : Nat) (hpos : 0 < maxB) (h : String)
    (rows : List String) (hover : utf8Len h > maxB) :
    ch_execute_sync_stream maxB (some h) rows = (join_lines [h], true) := by
  have henf : decide (maxB > 0) = true := by simpa using hpos
  have hd : decide (utf8Len h > maxB) = true := by simpa using hover
  simp only [ch_execute_sync_stream, henf, append_line_first, hd, Bool.not_true]

theorem ch_stream_header_fits (maxB : Nat) (hpos : 0 < maxB) (h : String)
    (rows : List String) (hfit : utf8Len h ≤ maxB) :
    ∃ k, k ≤ rows.length ∧
      ch_execute_sync_stream maxB (some h) rows =
        (join_lines (h :: rows.take k), decide (k < rows.length)) ∧
      (k < rows.length →
        joined_size (h :: rows.take (k + 1)) > maxB ∧
        joined_size (h :: rows.take k) ≤ maxB) := by
  have henf : decide (maxB > 0) = true := by simpa using hpos
  have hd : decide (utf8Len h > maxB) = false := by simp; omega
  obtain ⟨k, hk, hlines, htrunc, hbytes⟩ := stream_rows_spec maxB rows
    { lines := [h], total_bytes := utf8Len h, truncated := false }
    (by simp) rfl (by simp [joined_size]) hfit
  refine ⟨k, hk, ?_, ?_⟩
  · simp only [ch_execute_sync_stream, henf, append_line_first, hd, Bool.not_false]
    rw [show (join_lines (stream_rows true maxB
        { lines := [h], total_bytes := utf8Len h, truncated := false } rows).lines,
        (stream_rows true maxB
        { lines := [h], total_bytes := utf8Len h, truncated := false } rows).truncated) =
      (join_lines ([h] ++ rows.take k), decide (k < rows.length)) by rw [hlines, htrunc]]
    simp
  · intro hklt
    obtain ⟨hb1, hb2⟩ := hbytes hklt
    exact ⟨by simpa using hb1, by simpa using hb2⟩

theorem ch_stream_no_limit_header (h : String) (rows : List String) :
    ch_execute_sync_stream 0 (some h) rows = (join_lines (h :: rows), false) := by
  have key : ∀ (st : StreamAcc), st.lines = [h] → st.truncated = false →
      (join_lines (stream_rows false 0 st rows).lines,
       (stream_rows false 0 st rows).truncated) = (join_lines (h :: rows), false) := by
    intro st h1 h2
    obtain ⟨hl, ht⟩ := stream_rows_no_limit 0 rows st
    rw [hl, ht, h1, h2]
    simp
  simp only [ch_execute_sync_stream, show decide (0 > 0) = false from rfl,
    append_line_no_limit]
  exact key _ (by simp [initAcc]) rfl

theorem ch_stream_no_limit_headerless (rows : List String) :
    ch_execute_sync_stream 0 none rows = (join_lines rows, false) := by
  have key : ∀ (st : StreamAcc), st.lines = [] → st.truncated = false →
      (join_lines (stream_rows false 0 st rows).lines,
       (stream_rows false 0 st rows).truncated) = (join_lines rows, false) := by
    intro st h1 h2
    obtain ⟨hl, ht⟩ := stream_rows_no_limit 0 rows st
    rw [hl, ht, h1, h2]
    simp
  simp only [ch_execute_sync_stream, show decide (0 > 0) = false from rfl]
  exact key _ rfl rfl

theorem ch_output_cases (maxB : Nat) (header : Option String) (rows : List String) :
    ((ch_execute_sync_stream maxB header rows).2 = true →
      (ch_execute_output maxB header rows).1 =
        (if (ch_execute_sync_stream maxB header rows).1 = "" then ""
         else (ch_execute_sync_stream maxB header rows).1 ++ "\n") ++
        truncation_notice maxB) ∧
    ((ch_execute_sync_stream maxB header rows).2 = false →
      ch_execute_output maxB header rows = ch_execute_sync_stream maxB header rows) := by
  unfold ch_execute_output
  constructor <;> intro h2 <;> simp [h2]

theorem digit_char_ne_newline (n : Nat) : Char.ofNat (48 + n % 10) ≠ '\n' := by
  have h : n % 10 < 10 := Nat.mod_lt _ (by norm_num)
  set m := n % 10 with hm
  interval_cases m <;> decide

theorem natReprGo_ne_newline :
    ∀ (fuel n : Nat) (acc : List Char), (∀ c ∈ acc, c ≠ '\n') →
      ∀ c ∈ natReprGo fuel n acc, c ≠ '\n' := by
  intro fuel
  induction fuel with
  | zero => intro n acc hacc; exact hacc
  | succ f ih =>
    intro n acc hacc c hc
    simp only [natReprGo] at hc
    by_cases hn : n < 10
    · rw [if_pos hn] at hc
      rcases List.mem_cons.mp hc with h1 | h1
      · rw [h1]; exact digit_char_ne_newline n
      · exact hacc c h1
    · rw [if_neg hn] at hc
      refine ih (n / 10) (Char.ofNat (48 + n % 10) :: acc) ?_ c hc
      intro c' hc'
      rcases List.mem_cons.mp hc' with h1 | h1
      · rw [h1]; exact digit_char_ne_newline n
      · exact hacc c' h1

/-- The truncation notice is a single line: it contains no newline. -/
theorem truncation_notice_no_newline (n : Nat) :
    '\n' ∉ (truncation_notice n).data := by
  intro hmem
  unfold truncation_notice natRepr at hmem
  rw [String.data_append, String.data_append] at hmem
  rcases List.mem_append.mp hmem with h1 | h1
  · rcases List.mem_append.mp h1 with h2 | h2
    · exact absurd h2 (by decide)
    · exact natReprGo_ne_newline (n + 1) n [] (by simp) '\n' (by simpa using h2) rfl
  · exact absurd h1 (by decide)

end Spec2Proof

namespace Spec2Proof

/-- C4 counterexample: with a positive cap and no header line (no column
names), the first row is appended even though its addition pushes the byte
count past the cap — the claim says such a row is never appended. -/
theorem c4_counterexample :
    0 < 5 ∧
    utf8Len "aaaaaaaaaa" > 5 ∧
    ch_execute_sync_stream 5 none ["aaaaaaaaaa"] = ("aaaaaaaaaa", true) ∧
    ch_execute_output 5 none ["aaaaaaaaaa"] =
      ("aaaaaaaaaa\n[RESULT TRUNCATED: exceeded max_result_bytes=5 bytes]", true) := by
  exact ⟨by decide, by decide, by decide, by decide⟩

/-- C4 as amended: with a positive cap, the first emitted line — the header
when columns are present, otherwise the first row — is always admitted even
when it alone exceeds the cap; every later row whose addition would push the
exact UTF-8 byte count of the joined output past the cap is not appended and
the stream is marked truncated; and when truncated, the literal notice
`[RESULT TRUNCATED: exceeded max_result_bytes=<N> bytes]` (which contains no
newline) is appended as the single final line. -/
theorem c4_truncation (maxB : Nat) (hpos : 0 < maxB) (h : String)
    (rows : List String) :
    ∃ k, k ≤ rows.length ∧
      (ch_execute_sync_stream maxB (some h) rows).1 = join_lines (h :: rows.take k) ∧
      utf8Len (join_lines (h :: rows.take k)) = joined_size (h :: rows.take k) ∧
      ((ch_execute_sync_stream maxB (some h) rows).2 = false → k = rows.length) ∧
      (k < rows.length → (ch_execute_sync_stream maxB (some h) rows).2 = true ∧
        joined_size (h :: rows.take (k + 1)) > maxB ∧
        (joined_size (h :: rows.take k) ≤ maxB ∨ (k = 0 ∧ utf8Len h > maxB))) ∧
      ((ch_execute_sync_stream maxB (some h) rows).2 = true → k = rows.length →
        utf8Len h > maxB) ∧
      ((ch_execute_sync_stream maxB (some h) rows).2 = true →
        (ch_execute_output maxB (some h) rows).1 =
          (if (ch_execute_sync_stream maxB (some h) rows).1 = "" then ""
           else (ch_execute_sync_stream maxB (some h) rows).1 ++ "\n") ++
          truncation_notice maxB ∧
        '\n' ∉ (truncation_notice maxB).data) ∧
      ((ch_execute_sync_stream maxB (some h) rows).2 = false →
        (ch_execute_output maxB (some h) rows).1 =
          (ch_execute_sync_stream maxB (some h) rows).1) := by
  obtain ⟨hout_t, hout_f⟩ := ch_output_cases maxB (some h) rows
  by_cases hover : utf8Len h > maxB
  · have hs := ch_stream_header_over maxB hpos h rows hover
    refine ⟨0, by simp, ?_, utf8Len_join_lines _, ?_, ?_, ?_, ?_, ?_⟩
    · rw [hs, List.take_zero]
    · intro hf
      rw [hs] at hf
      simp at hf
    · intro hklt
      refine ⟨by rw [hs], ?_, Or.inr ⟨rfl, hover⟩⟩
      cases rows with
      | nil => simp at hklt
      | cons r rs =>
        simp only [List.take_succ_cons, List.take_zero, joined_size, List.foldl_cons,
          List.foldl_nil]
        omega
    · intro _ _
      exact hover
    · intro ht
      exact ⟨hout_t ht, truncation_notice_no_newline maxB⟩
    · intro hf
      rw [hout_f hf]
  · have hfit : utf8Len h ≤ maxB := by omega
    obtain ⟨k, hk, hstream, hbytes⟩ := ch_stream_header_fits maxB hpos h rows hfit
    refine ⟨k, hk, by rw [hstream], utf8Len_join_lines _, ?_, ?_, ?_, ?_, ?_⟩
    · intro hf
      rw [hstream] at hf
      simp at hf
      omega
    · intro hklt
      obtain ⟨hb1, hb2⟩ := hbytes hklt
      refine ⟨by rw [hstream]; simpa using hklt, hb1, Or.inl hb2⟩
    · intro ht hkeq
      rw [hstream] at ht
      simp [hkeq] at ht
    · intro ht
      exact ⟨hout_t ht, truncation_notice_no_newline maxB⟩
    · intro hf
      rw [hout_f hf]

theorem c4_truncation_witness :
    ∃ k, k ≤ (["aa", "bb", "cc"] : List String).length ∧
      (ch_execute_sync_stream 10 (some "hdr") ["aa", "bb", "cc"]).1 =
        join_lines ("hdr" :: (["aa", "bb", "cc"] : List String).take k) ∧
      utf8Len (join_lines ("hdr" :: (["aa", "bb", "cc"] : List String).take k)) =
        joined_size ("hdr" :: (["aa", "bb", "cc"] : List String).take k) ∧
      ((ch_execute_sync_stream 10 (some "hdr") ["aa", "bb", "cc"]).2 = false →
        k = (["aa", "bb", "cc"] : List String).length) ∧
      (k < (["aa", "bb", "cc"] : List String).length →
        (ch_execute_sync_stream 10 (some "hdr") ["aa", "bb", "cc"]).2 = true ∧
        joined_size ("hdr" :: (["aa", "bb", "cc"] : List String).take (k + 1)) > 10 ∧
        (joined_size ("hdr" :: (["aa", "bb", "cc"] : List String).take k) ≤ 10 ∨
          (k = 0 ∧ utf8Len "hdr" > 10))) ∧
      ((ch_execute_sync_stream 10 (some "hdr") ["aa", "bb", "cc"]).2 = true →
        k = (["aa", "bb", "cc"] : List String).length → utf8Len "hdr" > 10) ∧
      ((ch_execute_sync_stream 10 (some "hdr") ["aa", "bb", "cc"]).2 = true →
        (ch_execute_output 10 (some "hdr") ["aa", "bb", "cc"]).1 =
          (if (ch_execute_sync_stream 10 (some "hdr") ["aa", "bb", "cc"]).1 = "" then ""
           else (ch_execute_sync_stream 10 (some "hdr") ["aa", "bb", "cc"]).1 ++ "\n") ++
          truncation_notice 10 ∧
        '\n' ∉ (truncation_notice 10).data) ∧
      ((ch_execute_sync_stream 10 (some "hdr") ["aa", "bb", "cc"]).2 = false →
        (ch_execute_output 10 (some "hdr") ["aa", "bb", "cc"]).1 =
          (ch_execute_sync_stream 10 (some "hdr") ["aa", "bb", "cc"]).1) :=
  c4_truncation 10 (by decide) "hdr" ["aa", "bb", "cc"]

theorem utf8Len_replicate_a (n : Nat) :
    utf8Len (String.mk (List.replicate n 'a')) = n := by
  show (List.replicate n 'a').foldl (fun n c => n + c.utf8Size) 0 = n
  induction n with
  | zero => rfl
  | succ m ih =>
    rw [List.replicate_succ, List.foldl_cons, utf8_foldl_shift, ih]
    have ha : Char.utf8Size 'a' = 1 := rfl
    omega

theorem big_line_ne_empty : big_line ≠ "" := by
  intro h
  have h2 : utf8Len big_line = utf8Len "" := by rw [h]
  rw [show utf8Len "" = 0 from rfl, big_line, utf8Len_replicate_a] at h2
  omega

/-- C7 counterexample: a configuration that omits `max_result_bytes` loads
with the default 10,000,000-byte cap, not with the cap disabled, and a result
over that size is truncated with the notice appended. -/
theorem c7_counterexample :
    connection_init cfgA [] = .ok connA ∧
    cfgA.max_result_bytes = none ∧
    connA.max_result_bytes = some DEFAULT_MAX_RESULT_BYTES ∧
    (ch_execute_sync_stream (or_zero connA.max_result_bytes) (some big_line) []).2 = true ∧
    (ch_execute_output (or_zero connA.max_result_bytes) (some big_line) []).1 =
      big_line ++ "\n" ++ truncation_notice DEFAULT_MAX_RESULT_BYTES := by
  have hover : utf8Len big_line > 10000000 := by
    rw [big_line, utf8Len_replicate_a]
    omega
  have hz : or_zero connA.max_result_bytes = 10000000 := rfl
  have hs := ch_stream_header_over 10000000 (by omega) big_line [] hover
  obtain ⟨hout_t, _⟩ := ch_output_cases 10000000 (some big_line) []
  refine ⟨by rfl, rfl, rfl, ?_, ?_⟩
  · rw [hz, hs]
  · rw [hz, hout_t (by rw [hs])]
    rw [show (ch_execute_sync_stream 10000000 (some big_line) []).1 = big_line by
      rw [hs]; exact join_lines_singleton big_line]
    rw [if_neg big_line_ne_empty]
    rfl

/-- C7 as amended: explicitly setting `max_result_bytes` to `0` (or to
`null`) disables the cap — streaming then never truncates and never appends a
notice — while omitting the key yields the default 10,000,000-byte cap. -/
theorem c7_zero_cap (cfg : RawConfig) (env : List (String × String))
    (c : Connection) (h : connection_init cfg env = .ok c)
    (h0 : cfg.max_result_bytes = some none ∨ cfg.max_result_bytes = some (some 0)) :
    or_zero c.max_result_bytes = 0 ∧
    (∀ header rows, ch_execute_sync_stream (or_zero c.max_result_bytes)
        (some header) rows = (join_lines (header :: rows), false)) ∧
    (∀ rows, ch_execute_sync_stream (or_zero c.max_result_bytes) none rows =
        (join_lines rows, false)) ∧
    (∀ header rows, ch_execute_output (or_zero c.max_result_bytes)
        (some header) rows = (join_lines (header :: rows), false)) := by
  have hmax := (connection_init_ok_inv h).2.1
  have hz : or_zero c.max_result_bytes = 0 := by
    rcases h0 with h0 | h0 <;> rw [hmax, h0] <;> rfl
  rw [hz]
  refine ⟨rfl, fun header rows => ch_stream_no_limit_header header rows,
    fun rows => ch_stream_no_limit_headerless rows, fun header rows => ?_⟩
  have hkey := (ch_output_cases 0 (some header) rows).2
    (by rw [ch_stream_no_limit_header])
  rw [hkey, ch_stream_no_limit_header]

theorem c7_zero_cap_witness :
    or_zero conn_zero.max_result_bytes = 0 ∧
    ch_execute_sync_stream (or_zero conn_zero.max_result_bytes)
      (some "hdr") ["aa", "bb"] = (join_lines ["hdr", "aa", "bb"], false) ∧
    ch_execute_output (or_zero conn_zero.max_result_bytes)
      (some "hdr") ["aa", "bb"] = (join_lines ["hdr", "aa", "bb"], false) := by
  have h := c7_zero_cap cfg_zero [] conn_zero (by rfl) (Or.inr rfl)
  exact ⟨h.1, h.2.1 "hdr" ["aa", "bb"], h.2.2.2 "hdr" ["aa", "bb"]⟩

end Spec2Proof

namespace Spec2Proof

/-- C8: `BaseConnector._select_server` itself implements the claimed
behaviour — omitted selector → first endpoint, hostname-only match, the SSH
host accepted as an alias for a localhost endpoint, and a not-found error
listing the available display hostnames — but the PostgreSQL executors'
`execute_query` signatures take no `server` argument: they always select with
`None` (first endpoint), even though `execute_query_with_timeout` and the
dispatcher pass a `server` argument positionally.  Evaluating the selection
the PostgreSQL CLI path performs on a two-server connection shows the second
endpoint cannot be addressed through it. -/
theorem c8_pg_executor_ignores_server :
    pg_cli_selected_server connA = .ok ⟨"db1.example.com", 5432⟩ ∧
    select_server connA none = .ok ⟨"db1.example.com", 5432⟩ ∧
    select_server connA (some "db2.example.com") = .ok ⟨"db2.example.com", 5432⟩ ∧
    select_server connA (some "nosuch.example.com") =
      .error "Server 'nosuch.example.com' not found in connection 'prod'. Available servers: db1.example.com, db2.example.com" ∧
    select_server connS (some "bastion.example.com") = .ok ⟨"localhost", 9000⟩ ∧
    select_server connS (some "host:5432") =
      .error "Server specification 'host:5432' must be a hostname without port" := by
  exact ⟨by decide, by decide, by decide, by decide, by decide, by decide⟩

/-- C3 (modelled from the spec, §4.7): with `file_path` supplied, the
dispatcher fails with `FileExists` when the path exists (and sends no query:
the outcome does not depend on the executor), otherwise runs the executor
with the size cap disabled, creates the parent directories, writes the result
atomically and returns the resolved absolute path instead of the TSV body;
`_effective_max_result_bytes` reports `0` (unlimited) for the disabled
call. -/
theorem c3_file_path_dispatch (fs : FsState) (exec : Bool → Except String String)
    (p : List String) (body : String) :
    (fs.existing.contains p = true →
      run_query_read_only_dispatch fs exec (some p) = .error (.fileExists p) ∧
      (∀ exec2, run_query_read_only_dispatch fs exec (some p) =
        run_query_read_only_dispatch fs exec2 (some p))) ∧
    (fs.existing.contains p = false → exec false = .ok body →
      ∃ fs2, run_query_read_only_dispatch fs exec (some p) = .ok (.savedPath p, fs2) ∧
        (p, body) ∈ fs2.files ∧
        p ∈ fs2.existing ∧
        (∀ anc ∈ ancestors p, anc ∈ fs2.existing)) ∧
    (∀ c : Connection, or_zero (effective_max_result_bytes c false) = 0) := by
  refine ⟨?_, ?_, fun c => rfl⟩
  · intro hex
    simp only [run_query_read_only_dispatch, if_pos hex]
    exact ⟨trivial, fun exec2 => trivial⟩
  · intro hex hok
    simp only [run_query_read_only_dispatch]
    rw [if_neg (by simpa using hex), hok]
    refine ⟨_, rfl, by simp, by simp, ?_⟩
    intro anc hanc
    simp only [List.mem_cons, List.mem_append]
    exact Or.inr (Or.inl hanc)

theorem c3_file_path_dispatch_witness :
    (run_query_read_only_dispatch
        { existing := [["tmp"], ["tmp", "out.tsv"]], files := [] }
        (fun _ => .ok "id\tvalue\n1\ttest") (some ["tmp", "out.tsv"]) =
      .error (.fileExists ["tmp", "out.tsv"])) ∧
    (∃ fs2, run_query_read_only_dispatch
        { existing := [["tmp"], ["tmp", "out.tsv"]], files := [] }
        (fun _ => .ok "id\tvalue\n1\ttest") (some ["results", "new.tsv"]) =
        .ok (.savedPath ["results", "new.tsv"], fs2) ∧
      (["results", "new.tsv"], "id\tvalue\n1\ttest") ∈ fs2.files ∧
      ["results", "new.tsv"] ∈ fs2.existing ∧
      (∀ anc ∈ ancestors ["results", "new.tsv"], anc ∈ fs2.existing)) := by
  constructor
  · exact (c3_file_path_dispatch
      { existing := [["tmp"], ["tmp", "out.tsv"]], files := [] }
      (fun _ => .ok "id\tvalue\n1\ttest") ["tmp", "out.tsv"] "x").1 (by decide) |>.1
  · exact (c3_file_path_dispatch
      { existing := [["tmp"], ["tmp", "out.tsv"]], files := [] }
      (fun _ => .ok "id\tvalue\n1\ttest") ["results", "new.tsv"]
      "id\tvalue\n1\ttest").2.1 (by decide) rfl

end Spec2Proof

namespace Spec2Proof

theorem load_go_cons_ok (env : List (String × String)) (idx : Nat)
    (acc : List (String × Connection)) (errs : List String)
    (cfg : RawConfig) (rest : List RawConfig) (conn : Connection)
    (h : connection_init cfg env = .ok conn) :
    load_connections_go env idx acc errs (cfg :: rest) =
      if (acc.map Prod.fst).contains conn.name then
        load_connections_go env (idx + 1) acc (errs ++ [duplicate_name_msg conn.name]) rest
      else
        load_connections_go env (idx + 1) (acc ++ [(conn.name, conn)]) errs rest := by
  rw [load_connections_go, h]

theorem load_go_cons_err (env : List (String × String)) (idx : Nat)
    (acc : List (String × Connection)) (errs : List String)
    (cfg : RawConfig) (rest : List RawConfig) (e : String)
    (h : connection_init cfg env = .error e) :
    load_connections_go env idx acc errs (cfg :: rest) =
      load_connections_go env (idx + 1) acc
        (errs ++ ["Connection '" ++ config_label cfg idx ++ "': " ++ e]) rest := by
  rw [load_connections_go, h]

theorem load_go_errs_mono (env : List (String × String)) :
    ∀ (raws : List RawConfig) (idx : Nat) (acc : List (String × Connection))
      (errs : List String),
      ∃ tail, (load_connections_go env idx acc errs raws).2 = errs ++ tail := by
  intro raws
  induction raws with
  | nil =>
    intro idx acc errs
    exact ⟨[], by simp [load_connections_go]⟩
  | cons cfg rest ih =>
    intro idx acc errs
    cases hinit : connection_init cfg env with
    | ok conn =>
      rw [load_go_cons_ok env idx acc errs cfg rest conn hinit]
      by_cases hdup : (acc.map Prod.fst).contains conn.name = true
      · rw [if_pos hdup]
        obtain ⟨t, ht⟩ := ih (idx + 1) acc (errs ++ [duplicate_name_msg conn.name])
        exact ⟨duplicate_name_msg conn.name :: t, by rw [ht, List.append_assoc]; rfl⟩
      · rw [if_neg hdup]
        exact ih (idx + 1) (acc ++ [(conn.name, conn)]) errs
    | error e =>
      rw [load_go_cons_err env idx acc errs cfg rest e hinit]
      obtain ⟨t, ht⟩ := ih (idx + 1) acc
        (errs ++ ["Connection '" ++ config_label cfg idx ++ "': " ++ e])
      exact ⟨("Connection '" ++ config_label cfg idx ++ "': " ++ e) :: t,
        by rw [ht, List.append_assoc]; rfl⟩

theorem load_go_error_mem (env : List (String × String)) :
    ∀ (raws : List RawConfig) (idx : Nat) (acc : List (String × Connection))
      (errs : List String) (k : Nat) (cfgk : RawConfig) (e : String),
      raws[k]? = some cfgk → connection_init cfgk env = .error e →
      ("Connection '" ++ config_label cfgk (idx + k) ++ "': " ++ e)
        ∈ (load_connections_go env idx acc errs raws).2 := by
  intro raws
  induction raws with
  | nil =>
    intro idx acc errs k cfgk e hk _
    simp at hk
  | cons cfg rest ih =>
    intro idx acc errs k cfgk e hk hinit
    cases k with
    | zero =>
      rw [List.getElem?_cons_zero, Option.some.injEq] at hk
      subst hk
      rw [load_go_cons_err env idx acc errs cfg rest e hinit]
      obtain ⟨tail, ht⟩ := load_go_errs_mono env rest (idx + 1) acc
        (errs ++ ["Connection '" ++ config_label cfg idx ++ "': " ++ e])
      rw [ht]
      simp
    | succ k2 =>
      rw [List.getElem?_cons_succ] at hk
      have harith : idx + 1 + k2 = idx + (k2 + 1) := by omega
      cases hinit0 : connection_init cfg env with
      | ok conn =>
        rw [load_go_cons_ok env idx acc errs cfg rest conn hinit0]
        by_cases hdup : (acc.map Prod.fst).contains conn.name = true
        · rw [if_pos hdup]
          have := ih (idx + 1) acc (errs ++ [duplicate_name_msg conn.name]) k2 cfgk e hk hinit
          rwa [harith] at this
        · rw [if_neg hdup]
          have := ih (idx + 1) (acc ++ [(conn.name, conn)]) errs k2 cfgk e hk hinit
          rwa [harith] at this
      | error e0 =>
        rw [load_go_cons_err env idx acc errs cfg rest e0 hinit0]
        have := ih (idx + 1) acc
          (errs ++ ["Connection '" ++ config_label cfg idx ++ "': " ++ e0]) k2 cfgk e hk hinit
        rwa [harith] at this


theorem load_go_ok_spec (env : List (String × String)) :
    ∀ (raws : List RawConfig) (idx : Nat) (acc : List (String × Connection))
      (errs : List String),
      (load_connections_go env idx acc errs raws).2 = errs →
      (∀ cfg ∈ raws, ∃ c, connection_init cfg env = .ok c) ∧
      (∀ cfg ∈ raws, ∀ c, connection_init cfg env = .ok c →
        ¬ c.name ∈ acc.map Prod.fst) ∧
      (∀ p ∈ (load_connections_go env idx acc errs raws).1,
        p ∈ acc ∨ ∃ cfg ∈ raws, connection_init cfg env = .ok p.2 ∧ p.1 = p.2.name) ∧
      ((acc.map Prod.fst).Nodup →
        ((load_connections_go env idx acc errs raws).1.map Prod.fst).Nodup) ∧
      (∀ (k l : Nat) (ck cl : Connection) (cfgk cfgl : RawConfig), k < l →
        raws[k]? = some cfgk → raws[l]? = some cfgl →
        connection_init cfgk env = .ok ck → connection_init cfgl env = .ok cl →
        ck.name ≠ cl.name) := by
  intro raws
  induction raws with
  | nil =>
    intro idx acc errs _
    refine ⟨by simp, by simp, ?_, ?_, ?_⟩
    · intro p hp
      exact Or.inl (by simpa [load_connections_go] using hp)
    · intro h
      simpa [load_connections_go] using h
    · intro k l ck cl cfgk cfgl _ hk
      simp at hk
  | cons cfg rest ih =>
    intro idx acc errs h
    cases hinit : connection_init cfg env with
    | error e =>
      exfalso
      rw [load_go_cons_err env idx acc errs cfg rest e hinit] at h
      obtain ⟨t, ht⟩ := load_go_errs_mono env rest (idx + 1) acc
        (errs ++ ["Connection '" ++ config_label cfg idx ++ "': " ++ e])
      rw [ht] at h
      have := congrArg List.length h
      simp at this
    | ok conn =>
      rw [load_go_cons_ok env idx acc errs cfg rest conn hinit] at h ⊢
      by_cases hdup : (acc.map Prod.fst).contains conn.name = true
      · exfalso
        rw [if_pos hdup] at h
        obtain ⟨t, ht⟩ := load_go_errs_mono env rest (idx + 1) acc
          (errs ++ [duplicate_name_msg conn.name])
        rw [ht] at h
        have := congrArg List.length h
        simp at this
      · rw [if_neg hdup] at h ⊢
        obtain ⟨ih1, ih2, ih3, ih4, ih5⟩ :=
          ih (idx + 1) (acc ++ [(conn.name, conn)]) errs h
        have hnames : (acc ++ [(conn.name, conn)]).map Prod.fst
            = acc.map Prod.fst ++ [conn.name] := by simp
        have hndup : ¬ conn.name ∈ acc.map Prod.fst := by
          simpa using hdup
        refine ⟨?_, ?_, ?_, ?_, ?_⟩
        · intro cfg2 hmem
          rcases List.mem_cons.mp hmem with heq | htail
          · exact ⟨conn, heq ▸ hinit⟩
          · exact ih1 cfg2 htail
        · intro cfg2 hmem c hc
          rcases List.mem_cons.mp hmem with heq | htail
          · have : c = conn := by
              rw [heq, hinit] at hc
              exact (Except.ok.injEq _ _ ▸ hc).symm
            rw [this]
            exact hndup
          · have := ih2 cfg2 htail c hc
            rw [hnames] at this
            intro hin
            exact this (List.mem_append.mpr (Or.inl hin))
        · intro p hp
          rcases ih3 p hp with hacc | ⟨cfg2, hmem, hok, hname⟩
          · rcases List.mem_append.mp hacc with h1 | h2
            · exact Or.inl h1
            · have hpe : p = (conn.name, conn) := by simpa using h2
              exact Or.inr ⟨cfg, List.mem_cons_self _ _, by rw [hpe]; exact hinit,
                by rw [hpe]⟩
          · exact Or.inr ⟨cfg2, List.mem_cons_of_mem _ hmem, hok, hname⟩
        · intro hnd
          apply ih4
          rw [hnames]
          rw [List.nodup_append]
          exact ⟨hnd, List.nodup_singleton _, by
            intro a ha hb
            have : a = conn.name := by simpa using hb
            exact hndup (this ▸ ha)⟩
        · intro k l ck cl cfgk cfgl hkl hk hl hck hcl
          cases k with
          | zero =>
            rw [List.getElem?_cons_zero, Option.some.injEq] at hk
            cases l with
            | zero => omega
            | succ l2 =>
              rw [List.getElem?_cons_succ] at hl
              have hcke : ck = conn := by
                rw [← hk, hinit] at hck
                exact (Except.ok.injEq _ _ ▸ hck).symm
              have hclmem : ¬ cl.name ∈ (acc ++ [(conn.name, conn)]).map Prod.fst := by
                have hmem : cfgl ∈ rest := by
                  obtain ⟨hlt, hget⟩ := List.getElem?_eq_some.mp hl
                  exact hget ▸ List.getElem_mem hlt
                exact ih2 cfgl hmem cl hcl
              rw [hnames] at hclmem
              intro heq
              apply hclmem
              apply List.mem_append.mpr
              exact Or.inr (by simp [← heq, hcke])
          | succ k2 =>
            cases l with
            | zero => omega
            | succ l2 =>
              rw [List.getElem?_cons_succ] at hk hl
              exact ih5 k2 l2 ck cl cfgk cfgl (by omega) hk hl hck hcl


/-- C9: if a registry load succeeds then every raw config validated, every
loaded connection is keyed by its name and satisfies
`database ∈ allowed_databases` (with a lone `db`/`default_database` yielding
the singleton allowlist, and a lone allowlist making its stripped first entry
the default), and the loaded names are pairwise distinct; if the loop
collected any error the whole load fails with the single aggregated message,
and every per-config validation failure contributes its
`Connection '<label>': <error>` line to the collected errors. -/
theorem c9_registry (raws : List RawConfig) (env : List (String × String)) :
    (∀ conns, load_connections raws env = .ok conns →
      (∀ cfg ∈ raws, ∃ c, connection_init cfg env = .ok c) ∧
      (conns.map Prod.fst).Nodup ∧
      (∀ p ∈ conns, p.1 = p.2.name ∧
        p.2.database ∈ p.2.allowed_databases ∧
        ∃ cfg ∈ raws, connection_init cfg env = .ok p.2 ∧
          (cfg.allowed_databases = none → cfg.databases = none →
            p.2.allowed_databases = [p.2.database]) ∧
          (cfg.db = none → cfg.default_database = none →
            ∃ hd tl, p.2.allowed_databases = hd :: tl ∧
              p.2.database = pyStrip hd))) ∧
    ((load_connections_go env 0 [] [] raws).2 ≠ [] →
      load_connections raws env =
        .error (agg_error_message (load_connections_go env 0 [] [] raws).2)) ∧
    (∀ (k : Nat) (cfgk : RawConfig) (e : String),
      raws[k]? = some cfgk → connection_init cfgk env = .error e →
      ("Connection '" ++ config_label cfgk k ++ "': " ++ e)
        ∈ (load_connections_go env 0 [] [] raws).2) := by
  refine ⟨?_, ?_, ?_⟩
  · intro conns hok
    have hsplit : (load_connections_go env 0 [] [] raws).2 = [] ∧
        conns = (load_connections_go env 0 [] [] raws).1 := by
      unfold load_connections at hok
      by_cases hemp : (load_connections_go env 0 [] [] raws).2.isEmpty = true
      · rw [if_pos hemp] at hok
        exact ⟨List.isEmpty_iff.mp hemp, by
          simpa using hok.symm⟩
      · rw [if_neg hemp] at hok
        exact absurd hok (by simp)
    obtain ⟨hz, hc⟩ := hsplit
    obtain ⟨s1, _, s3, s4, _⟩ := load_go_ok_spec env raws 0 [] [] hz
    refine ⟨s1, ?_, ?_⟩
    · rw [hc]
      exact s4 (by simp)
    · intro p hp
      rw [hc] at hp
      rcases s3 p hp with habs | ⟨cfg, hmem, hokp, hname⟩
      · exact absurd habs (by simp)
      · obtain ⟨hdbcfg, _, _, _, _⟩ := connection_init_ok_inv hokp
        obtain ⟨m1, m2, m3⟩ := resolve_db_config_ok hdbcfg
        exact ⟨hname, m1, cfg, hmem, hokp, m2, m3⟩
  · intro hne
    unfold load_connections
    rw [if_neg (by rw [isEmpty_false_of_ne_nil hne]; simp)]
  · intro k cfgk e hk he
    simpa using load_go_error_mem env raws 0 [] [] k cfgk e hk he

theorem c9_registry_witness :
    load_connections [cfgA, { cfgA with connection_name := some "beta" }] [] =
      .ok [("prod", connA), ("beta", { connA with name := "beta" })] ∧
    (([("prod", connA), ("beta", { connA with name := "beta" })].map
        Prod.fst).Nodup) ∧
    connA.database ∈ connA.allowed_databases := by
  have hload : load_connections
      [cfgA, { cfgA with connection_name := some "beta" }] [] =
      .ok [("prod", connA), ("beta", { connA with name := "beta" })] := by
    rfl
  have main :=
    (c9_registry [cfgA, { cfgA with connection_name := some "beta" }] []).1
      [("prod", connA), ("beta", { connA with name := "beta" })] hload
  refine ⟨hload, main.2.1, ?_⟩
  exact (main.2.2 ("prod", connA) (by simp)).2.1

end Spec2Proof
